import Mathlib

/-!
# Telnet client (`main.go`): embedding and verification

The program connects to `ADDRESS:PORT`, then relays standard-input lines to the
socket (`writeRoutine`) and socket lines to standard output (`readRoutine`).
Each stream is scanned into lines by `readScan`, running in a goroutine started
by `scanToChan`, and handed to its pump through a channel of capacity 1.

The first part embeds the loops as functions of what their `select` observes;
the second part embeds the whole program as an interleaving transition system.
-/

namespace Telnet

/-! ## Strings and writers -/

/-- A byte. Go strings are byte sequences; the program never computes on a
byte, it only compares bytes with the line terminators. -/
abbrev Byte := Nat

/-- A Go `string` (equally a `[]byte`). -/
abbrev GoString := List Byte

/-- The byte of `"\n"`. -/
def nl : Byte := 10

/-- The byte of `"\r"`. -/
def cr : Byte := 13

/-- The bytes of an ASCII string literal of the source. -/
def ascii (s : String) : GoString := s.toList.map Char.toNat

/-- An `io.Writer`: `write st p` is one call of `Write(p)` in state `st`; it
gives the writer's next state and the returned `err` (`none` is `nil`; the text
of an error otherwise). The byte count that `Write` also returns is discarded
by the program. -/
structure Writer (σ : Type) where
  write : σ → GoString → σ × Option GoString

/-- What one execution of the `select` of a pump observes: the case
`<-ctx.Done()`, or the case `line, ok := <-c`. -/
inductive Selected where
  | done
  | recv (line : GoString) (ok : Bool)
  deriving DecidableEq, Repr

/-- Why a pump left its loop (`break OUTER`). -/
inductive Stop where
  | cancelled
  | chanClosed
  | writeError
  deriving DecidableEq, Repr

/-- The outcome of running a pump on a finite list of `select` observations. -/
structure PumpRun (σ : Type) where
  /-- final state of the writer the pump writes lines to -/
  out : σ
  /-- the argument of every call of `Write` made on that writer, in order -/
  wrote : List GoString
  /-- diagnostics printed by the pump -/
  logged : List GoString
  /-- `none`: RUNNING (blocked in `select`); `some r`: STOPPED for reason `r` -/
  stop : Option Stop

/-- The function `writeRoutine` (main.go:112-130), run on the observations of its
`select`. -/
def writeRoutine {σ : Type} (out : Writer σ) : σ → List Selected → PumpRun σ
  | st, [] => ⟨st, [], [], none⟩
  | st, Selected.done :: _ => ⟨st, [], [], some Stop.cancelled⟩
  | st, Selected.recv line ok :: rest =>
    if !ok then
      ⟨st, [], [ascii "Write error: channel is closed\n"], some Stop.chanClosed⟩
    else
      match out.write st (line ++ [nl]) with
      | (st1, some err) =>
        ⟨st1, [line ++ [nl]], [ascii "Wrire error: " ++ err ++ [nl]], some Stop.writeError⟩
      | (st1, none) =>
        let r := writeRoutine out st1 rest
        ⟨r.out, (line ++ [nl]) :: r.wrote, r.logged, r.stop⟩

/-- The function `readRoutine` (main.go:132-146), run on the observations of its
`select`; `stdout` is standard output, the writer behind `fmt.Printf`. The
result of `fmt.Printf("%s\n", line)` is not inspected by the source. -/
def readRoutine {σ : Type} (stdout : Writer σ) : σ → List Selected → PumpRun σ
  | st, [] => ⟨st, [], [], none⟩
  | st, Selected.done :: _ => ⟨st, [], [], some Stop.cancelled⟩
  | st, Selected.recv line ok :: rest =>
    if !ok then
      let st1 := (stdout.write st (ascii "Read error: channel is closed\n")).1
      ⟨st1, [ascii "Read error: channel is closed\n"], [], some Stop.chanClosed⟩
    else
      let st1 := (stdout.write st (line ++ [nl])).1
      let r := readRoutine stdout st1 rest
      ⟨r.out, (line ++ [nl]) :: r.wrote, r.logged, r.stop⟩

/-- The results (`true`: an error) a writer gives when the byte strings `ps`
are written to it one after the other, whatever the results. -/
def writeResults {σ : Type} (out : Writer σ) : σ → List GoString → List Bool
  | _, [] => []
  | st, p :: ps =>
    let r := out.write st p
    r.2.isSome :: writeResults out r.1 ps

/-- The observations of a pump that dequeues `lines` from an open channel and
never sees the cancellation. -/
def dequeued (lines : List GoString) : List Selected :=
  lines.map fun l => Selected.recv l true

/-- The byte string `line + "\n"`. -/
def withNewline (line : GoString) : GoString := line ++ [nl]


/-! ## Line scanning (`bufio.Scanner` with its default split function)

`readScan` uses `bufio.NewScanner(in)`: the split function is `bufio.ScanLines`
and the buffer grows up to `bufio.MaxScanTokenSize`. These belong to the Go
standard library; they are embedded from its sources. -/

/-- The constant `bufio.MaxScanTokenSize`. -/
def maxScanTokenSize : Nat := 64 * 1024

/-- The function `dropCR` of package bufio: drops a terminal `\r` from the data. -/
def dropCR (data : GoString) : GoString :=
  if data.getLast? = some cr then data.dropLast else data

/-- The function `bytes.IndexByte`: the first index of `b` in `data`, if any. -/
def indexByte : GoString → Byte → Option Nat
  | [], _ => none
  | x :: xs, b => if x = b then some 0 else (indexByte xs b).map (· + 1)

/-- The function `bufio.ScanLines(data, atEOF)`: the number of bytes to advance
and the token; no token is a request for more data (or the end, at EOF). -/
def ScanLines (data : GoString) (atEOF : Bool) : Nat × Option GoString :=
  if atEOF && data.isEmpty then (0, none)
  else
    match indexByte data nl with
    | some i => (i + 1, some (dropCR (data.take i)))
    | none => if atEOF then (data.length, some (dropCR data)) else (0, none)

/-- One call of `Scan()` followed by `Text()`, on the unread remainder `unread`
of the stream (all the bytes the reader delivers before it reports EOF or an
error). The buffer holds at most `maxScanTokenSize` bytes, so the split function
sees at most that many; it is told `atEOF` once the reader has nothing more,
which requires the whole remainder to fit with room left to read into. The
result is the token and the new remainder, or `none` when `Scan` returns false
(end of the stream, or `ErrTooLong` when the buffer is full without a token). -/
def Scan (unread : GoString) : Option (GoString × GoString) :=
  let window := unread.take maxScanTokenSize
  let atEOF := decide (unread.length < maxScanTokenSize)
  match ScanLines window atEOF with
  | (advance, some token) => some (token, unread.drop advance)
  | (_, none) => none

/-- The loop of `readScan` (main.go:102-110) with `fuel` iterations allowed:
the lines sent on the channel `c`, in order, when no send blocks for ever. -/
def readScanLoop : Nat → GoString → List GoString
  | 0, _ => []
  | fuel + 1, unread =>
    match Scan unread with
    | none => []
    | some (token, unread1) => token :: readScanLoop fuel unread1

/-- The function `readScan` (main.go:102-110): the lines sent on the channel
when the reader delivers `stream` and then reports EOF. Every successful `Scan`
consumes at least one byte, so `stream.length + 1` iterations reach the `break`
(`readScanLoop_fuel`). -/
def readScan (stream : GoString) : List GoString :=
  readScanLoop (stream.length + 1) stream

/-- A writer that accepts everything and keeps what it was given: standard
output as the record of the bytes printed. -/
def recorder : Writer GoString where
  write st p := (st ++ p, none)

/-- A writer on which every write fails (a closed standard output); its state
is the arguments of the calls of `Write` made on it, in order. -/
def broken : Writer (List GoString) where
  write st p := (st ++ [p], some (ascii "file already closed"))

/-- The inbound path: `stream` is received from the socket, `readScan` sends its
lines on the channel and `readRoutine` dequeues each of them (no cancellation
observed) and prints it. The result is the bytes printed to standard output. -/
def inboundPath (stream : GoString) : GoString :=
  (readRoutine recorder [] (dequeued (readScan stream))).out

/-- The bytes of a sequence of newline-terminated lines. -/
def joinLines (lines : List GoString) : GoString :=
  (lines.map withNewline).flatten

/-- A writer whose state is the arguments of the calls of `Write` made on it,
in order, and that fails at call number `n` (counting from 0) and only there. -/
def failingAt (n : Nat) : Writer (List GoString) where
  write st p := (st ++ [p], if st.length = n then some (ascii "broken pipe") else none)

/-- The state of a writer after the byte strings `ps` have been written to it,
one call of `Write` each, in order, and nothing else. -/
def writeAll {σ : Type} (out : Writer σ) : σ → List GoString → σ
  | st, [] => st
  | st, p :: ps => writeAll out (out.write st p).1 ps

/-! ## Time: the session timeout and the connect deadline -/

/-- Wrap-around of an integer into the range of `int64`. -/
def wrapInt64 (x : Int) : Int := (x + 2 ^ 63) % 2 ^ 64 - 2 ^ 63

/-- The constant `time.Second`, in nanoseconds (the unit of `time.Duration`). -/
def second : Int := 1000000000

/-- The constant `connectTimeout` (main.go:17). -/
def connectTimeout : Int := 5 * second

/-- The variable `timeout` as set by `init` (main.go:28) from the value
`timeoutInt` of the flag `-timeout`: `time.Duration(timeoutInt) * time.Second`,
an `int64` product. -/
def timeout (timeoutInt : Int) : Int := wrapInt64 (timeoutInt * second)

/-- The fields of `net.Dialer` that bound the time of a dial. A `time.Time` is
an instant in nanoseconds; `none` is the zero `Time`. -/
structure Dialer where
  Timeout : Int
  Deadline : Option Int

/-- The function `minNonzeroTime` of package net. -/
def minNonzeroTime (a b : Option Int) : Option Int :=
  match a, b with
  | none, b => b
  | some a, none => some a
  | some a, some b => if a < b then some a else some b

/-- The method `(*Dialer).deadline(ctx, now)` of package net: the earliest of
`now + Timeout`, the deadline of the context and `Deadline`. `DialContext` gives
up at this instant. `ctxDeadline` is the result of `ctx.Deadline()`. -/
def Dialer.deadline (d : Dialer) (ctxDeadline : Option Int) (now : Int) : Option Int :=
  let earliest := if d.Timeout ≠ 0 then some (now + d.Timeout) else none
  let earliest :=
    match ctxDeadline with
    | some c => minNonzeroTime earliest (some c)
    | none => earliest
  minNonzeroTime earliest d.Deadline

/-- The time allowed to the connect attempt of `main` (main.go:51-56). The
context is made by `context.WithTimeout(context.Background(), timeout)` at the
instant `created`, so its deadline is `created + session` for the value
`session` of `timeout`; the dialer is `net.Dialer{Timeout: connectTimeout}`;
`DialContext(ctx, ...)` starts at the instant `now` and may last until the
dialer's deadline. -/
def connectAllowance (session created now : Int) : Option Int :=
  (Dialer.deadline ⟨connectTimeout, none⟩ (some (created + session)) now).map (· - now)

/-! ## The program as a transition system

The goroutines of the program are interleaved statement by statement. An
`Action` says which goroutine executes its next statement, or which event of the
environment happens (the dial returns, the session deadline expires, a SIGINT
is delivered, a `Write` on the connection returns). -/

/-- What the program is started with and what its environment holds. -/
structure Config where
  /-- the positional arguments, `flag.Args()` -/
  args : List GoString
  /-- the value of the flag `-timeout` -/
  timeoutInt : Int
  /-- the value of `path.Base(os.Args[0])` -/
  progName : GoString
  /-- the bytes standard input delivers before it reports EOF -/
  stdin : GoString
  /-- the bytes the connection delivers before it reports EOF or an error -/
  socket : GoString
  /-- the text of a `time.Duration` under the verb `%v` -/
  showDuration : Int → GoString
  /-- the value of `time.Since(timeStart)` when `printAndExit` reads it -/
  elapsed : Int

/-- The two streams: `inbound` is socket to standard output (`readRoutine`),
`outbound` is standard input to socket (`writeRoutine`). -/
inductive Dir where
  | inbound
  | outbound
  deriving DecidableEq, Repr

/-- Progress inside `printAndExit(s, e)` (main.go:148-152): the next statement
is `fmt.Println(s)`, the `fmt.Printf` of the elapsed time, or `os.Exit(e)`. -/
inductive Exiting where
  | println (s : GoString) (e : Nat)
  | stopped (e : Nat)
  | osExit (e : Nat)
  deriving DecidableEq, Repr

/-- The next statement of `main` (main.go:39-91). `dial` is the call of
`DialContext`, which returns by the action `Action.dial`; `ret` is the return of
`main`, where the deferred function (main.go:64-68) runs. -/
inductive MainPc where
  | checkArgs
  | banner
  | withTimeout
  | dial
  | connected
  | deferClose
  | scanStdin
  | scanConn
  | addRead
  | goRead
  | addWrite
  | goWrite
  | wait
  | exiting (p : Exiting)
  | ret
  deriving DecidableEq, Repr

/-- The goroutine started by `scanToChan` (main.go:95-98) around `readScan`:
not started; about to call `Scan`; holding a line, about to send it on the
channel; `readScan` has returned, about to call `cancel`; finished. -/
inductive SourcePc where
  | idle
  | scan
  | send (line : GoString)
  | cancel
  | finished
  deriving DecidableEq, Repr

/-- The goroutine of a pump (main.go:76-80, 83-87): not started; at the
`select`; holding the result of the receive, about to write or print; the
routine has returned for reason `r`, about to call `cancel`; about to call
`wg.Done`; finished. -/
inductive PumpPc where
  | idle
  | select
  | got (line : GoString) (ok : Bool)
  | cancel (r : Stop)
  | wgDone (r : Stop)
  | finished (r : Stop)
  deriving DecidableEq, Repr

/-- The channel made by `make(chan string, 1)`: its buffer and whether it has
been closed. -/
structure Chan where
  buf : List GoString
  closed : Bool
  deriving DecidableEq, Repr

/-- The capacity of the channel made by `scanToChan` (main.go:94). -/
def chanCap : Nat := 1

/-- One stream: the reader, its line source, the channel, and the pump. -/
structure Stream where
  /-- what the reader has not delivered yet -/
  unread : GoString
  source : SourcePc
  chan : Chan
  pump : PumpPc
  /-- the lines for which `Scan` returned true, in order -/
  scanned : List GoString
  /-- the lines the pump has handed to `Write` or `Printf`, in order -/
  forwarded : List GoString
  deriving DecidableEq, Repr

/-- The state of the process. -/
structure State where
  main : MainPc
  /-- the goroutine of `init` (main.go:33-36): `none` while it waits on the
  signal channel, then its progress in `printAndExit` -/
  handler : Option Exiting
  /-- a signal is buffered in the channel given to `signal.Notify` -/
  sigc : Bool
  /-- the context `ctx` exists (its timer is armed) -/
  ctxLive : Bool
  /-- `ctx.Done()` is closed: the shared cancellation signal is fired -/
  done : Bool
  /-- the counter of the WaitGroup `wg` -/
  wg : Nat
  inb : Stream
  outb : Stream
  /-- every print on standard output, in order -/
  stdout : List GoString
  /-- the argument of every `Write` on the connection, in order -/
  sent : List GoString
  /-- the number of calls of `DialContext` -/
  dials : Nat
  /-- the `err` returned by `DialContext`, once it has returned -/
  dialed : Option (Option GoString)
  /-- the closure of main.go:64-68 is deferred -/
  deferred : Bool
  /-- the number of calls of `conn.Close` -/
  closes : Nat
  /-- `wg.Wait()` has returned -/
  joined : Bool
  /-- the exit status, once the process has exited -/
  exited : Option Nat
  deriving DecidableEq, Repr

/-- A step of the program. -/
inductive Action where
  /-- `main` executes its next statement -/
  | main
  /-- `DialContext` returns `err` -/
  | dial (err : Option GoString)
  /-- the deadline of `ctx` expires -/
  | deadline
  /-- a SIGINT is delivered to the process -/
  | interrupt
  /-- the signal goroutine executes its next statement -/
  | handler
  /-- the line source of a stream executes its next statement -/
  | source (d : Dir)
  /-- the `select` of a pump takes the case `<-ctx.Done()` -/
  | pumpDone (d : Dir)
  /-- the `select` of a pump takes the case `line, ok := <-c` -/
  | pumpRecv (d : Dir)
  /-- a pump handles what it received; `err` is what the `Write` returns -/
  | pumpForward (d : Dir) (err : Option GoString)
  /-- the goroutine of a pump executes its next statement after the routine -/
  | pumpExit (d : Dir)
  /-- the deferred `conn.Close()` runs and returns `err` -/
  | close (err : Option GoString)
  deriving DecidableEq, Repr

def State.stream (s : State) : Dir → Stream
  | Dir.inbound => s.inb
  | Dir.outbound => s.outb

def State.setStream (s : State) (d : Dir) (x : Stream) : State :=
  match d with
  | Dir.inbound => { s with inb := x }
  | Dir.outbound => { s with outb := x }

def address (cfg : Config) : GoString := cfg.args.getD 0 []

def port (cfg : Config) : GoString := cfg.args.getD 1 []

/-- The usage text of main.go:44. -/
def usageMsg (cfg : Config) : GoString :=
  ascii "Usage of " ++ cfg.progName ++ ascii ":\nADDRESS PORT [-timeout (default 60)]\n"

/-- The text of main.go:50. -/
def tryingMsg (cfg : Config) : GoString :=
  ascii "Trying " ++ address cfg ++ ascii ":" ++ port cfg ++ ascii " with timeout "
    ++ cfg.showDuration (timeout cfg.timeoutInt) ++ ascii "...\n"

/-- The text of main.go:59 for the error `err`. -/
def cantConnectMsg (err : GoString) : GoString :=
  ascii "Can't connect: " ++ err ++ [nl]

/-- The text of main.go:62. -/
def connectedMsg (cfg : Config) : GoString :=
  ascii "Connected to " ++ address cfg ++ ascii ":" ++ port cfg ++ ascii ".\n"

/-- The text of main.go:66 for the error `err`. -/
def cantCloseMsg (err : GoString) : GoString :=
  ascii "Can't close connection: " ++ err

/-- One statement of `printAndExit` (main.go:148-152). `os.Exit` ends the
process: it does not return and no deferred function runs. -/
def printAndExit (cfg : Config) (p : Exiting) (s : State) : State × Exiting :=
  match p with
  | Exiting.println msg e => ({ s with stdout := s.stdout ++ [msg ++ [nl]] }, Exiting.stopped e)
  | Exiting.stopped e =>
    ({ s with stdout := s.stdout ++
        [ascii "Stopped after " ++ cfg.showDuration cfg.elapsed ++ [nl]] }, Exiting.osExit e)
  | Exiting.osExit e => ({ s with exited := some e }, Exiting.osExit e)

/-- One statement of `main` (main.go:39-91). -/
def mainStep (cfg : Config) (s : State) : Option State :=
  match s.main with
  | MainPc.checkArgs =>
    if cfg.args.length < 2 then
      some { s with main := MainPc.exiting (Exiting.println (usageMsg cfg) 1) }
    else some { s with main := MainPc.banner }
  | MainPc.banner =>
    some { s with stdout := s.stdout ++ [tryingMsg cfg], main := MainPc.withTimeout }
  | MainPc.withTimeout =>
    some { s with ctxLive := true, done := decide (timeout cfg.timeoutInt ≤ 0),
                  main := MainPc.dial }
  | MainPc.dial => none
  | MainPc.connected =>
    some { s with stdout := s.stdout ++ [connectedMsg cfg], main := MainPc.deferClose }
  | MainPc.deferClose => some { s with deferred := true, main := MainPc.scanStdin }
  | MainPc.scanStdin =>
    some { s with outb := { s.outb with source := SourcePc.scan }, main := MainPc.scanConn }
  | MainPc.scanConn =>
    some { s with inb := { s.inb with source := SourcePc.scan }, main := MainPc.addRead }
  | MainPc.addRead => some { s with wg := s.wg + 1, main := MainPc.goRead }
  | MainPc.goRead =>
    some { s with inb := { s.inb with pump := PumpPc.select }, main := MainPc.addWrite }
  | MainPc.addWrite => some { s with wg := s.wg + 1, main := MainPc.goWrite }
  | MainPc.goWrite =>
    some { s with outb := { s.outb with pump := PumpPc.select }, main := MainPc.wait }
  | MainPc.wait =>
    if s.wg = 0 then
      some { s with joined := true,
                    main := MainPc.exiting (Exiting.println (ascii "Connection closed.") 0) }
    else none
  | MainPc.exiting p =>
    let r := printAndExit cfg p s
    some { r.1 with main := MainPc.exiting r.2 }
  | MainPc.ret => none

/-- The return of `DialContext` and the test of its error (main.go:56-60). -/
def dialStep (err : Option GoString) (s : State) : Option State :=
  match s.main with
  | MainPc.dial =>
    match err with
    | some e =>
      some { s with dials := s.dials + 1, dialed := some (some e),
                    main := MainPc.exiting (Exiting.println (cantConnectMsg e) 1) }
    | none =>
      some { s with dials := s.dials + 1, dialed := some none, main := MainPc.connected }
  | _ => none

/-- The deferred function of main.go:64-68, run when `main` returns; after it
the process ends with status 0 unless it exited itself. -/
def closeStep (err : Option GoString) (s : State) : Option State :=
  match s.main with
  | MainPc.ret =>
    if s.deferred then
      match err with
      | some e =>
        some { s with closes := s.closes + 1,
                      main := MainPc.exiting (Exiting.println (cantCloseMsg e) 1) }
      | none => some { s with closes := s.closes + 1, exited := some 0 }
    else some { s with exited := some 0 }
  | _ => none

/-- One statement of the signal goroutine (main.go:33-36). -/
def handlerStep (cfg : Config) (s : State) : Option State :=
  match s.handler with
  | none =>
    if s.sigc then
      some { s with sigc := false, handler := some (Exiting.println (ascii "\nGot SIGINT\n") 1) }
    else none
  | some p =>
    let r := printAndExit cfg p s
    some { r.1 with handler := some r.2 }

/-- One statement of the goroutine of `scanToChan` (main.go:95-98) running
`readScan` (main.go:102-110). A send blocks while the buffer is full; a send on
a closed channel panics (exit status 2). -/
def sourceStep (d : Dir) (s : State) : Option State :=
  let x := s.stream d
  match x.source with
  | SourcePc.idle => none
  | SourcePc.scan =>
    match Scan x.unread with
    | some (token, unread1) =>
      some (s.setStream d { x with unread := unread1, source := SourcePc.send token,
                                   scanned := x.scanned ++ [token] })
    | none => some (s.setStream d { x with source := SourcePc.cancel })
  | SourcePc.send line =>
    if x.chan.closed then some { s with exited := some 2 }
    else if x.chan.buf.length < chanCap then
      some (s.setStream d { x with chan := { x.chan with buf := x.chan.buf ++ [line] },
                                   source := SourcePc.scan })
    else none
  | SourcePc.cancel =>
    some ({ s with done := true }.setStream d { x with source := SourcePc.finished })
  | SourcePc.finished => none

/-- The case `<-ctx.Done()` of the `select` of a pump (main.go:116-117, 136-137). -/
def pumpDoneStep (d : Dir) (s : State) : Option State :=
  let x := s.stream d
  match x.pump with
  | PumpPc.select =>
    if s.done then some (s.setStream d { x with pump := PumpPc.cancel Stop.cancelled })
    else none
  | _ => none

/-- The case `line, ok := <-c` of the `select` of a pump (main.go:118, 138): a
buffered line is received with `ok` true; on an empty closed channel the zero
value is received with `ok` false; on an empty open channel the case is not
ready. -/
def pumpRecvStep (d : Dir) (s : State) : Option State :=
  let x := s.stream d
  match x.pump with
  | PumpPc.select =>
    match x.chan.buf with
    | line :: rest =>
      some (s.setStream d { x with chan := { x.chan with buf := rest },
                                   pump := PumpPc.got line true })
    | [] =>
      if x.chan.closed then some (s.setStream d { x with pump := PumpPc.got [] false })
      else none
  | _ => none

/-- The body of the receive case: main.go:119-127 for `writeRoutine`, where
`err` is the result of `out.Write`, and main.go:139-143 for `readRoutine`. -/
def pumpForwardStep (d : Dir) (err : Option GoString) (s : State) : Option State :=
  let x := s.stream d
  match x.pump with
  | PumpPc.got line ok =>
    match d with
    | Dir.outbound =>
      if !ok then
        some ({ s with stdout := s.stdout ++ [ascii "Write error: channel is closed\n"] }.setStream
          d { x with pump := PumpPc.cancel Stop.chanClosed })
      else
        match err with
        | some e =>
          some ({ s with sent := s.sent ++ [line ++ [nl]],
                         stdout := s.stdout ++ [ascii "Wrire error: " ++ e ++ [nl]] }.setStream
            d { x with forwarded := x.forwarded ++ [line],
                       pump := PumpPc.cancel Stop.writeError })
        | none =>
          some ({ s with sent := s.sent ++ [line ++ [nl]] }.setStream
            d { x with forwarded := x.forwarded ++ [line], pump := PumpPc.select })
    | Dir.inbound =>
      if !ok then
        some ({ s with stdout := s.stdout ++ [ascii "Read error: channel is closed\n"] }.setStream
          d { x with pump := PumpPc.cancel Stop.chanClosed })
      else
        some ({ s with stdout := s.stdout ++ [line ++ [nl]] }.setStream
          d { x with forwarded := x.forwarded ++ [line], pump := PumpPc.select })
  | _ => none

/-- The statements after the routine in the goroutine of a pump: `cancel()` and
`wg.Done()` (main.go:78-79, 85-86). `Done` on a zero counter panics. -/
def pumpExitStep (d : Dir) (s : State) : Option State :=
  let x := s.stream d
  match x.pump with
  | PumpPc.cancel r =>
    some ({ s with done := true }.setStream d { x with pump := PumpPc.wgDone r })
  | PumpPc.wgDone r =>
    if s.wg = 0 then some { s with exited := some 2 }
    else some ({ s with wg := s.wg - 1 }.setStream d { x with pump := PumpPc.finished r })
  | _ => none

/-- One step of the process; nothing happens after the process has exited. -/
def step (cfg : Config) (a : Action) (s : State) : Option State :=
  if s.exited.isSome then none
  else
    match a with
    | Action.main => mainStep cfg s
    | Action.dial err => dialStep err s
    | Action.deadline => if s.ctxLive then some { s with done := true } else none
    | Action.interrupt => some { s with sigc := true }
    | Action.handler => handlerStep cfg s
    | Action.source d => sourceStep d s
    | Action.pumpDone d => pumpDoneStep d s
    | Action.pumpRecv d => pumpRecvStep d s
    | Action.pumpForward d err => pumpForwardStep d err s
    | Action.pumpExit d => pumpExitStep d s
    | Action.close err => closeStep err s

/-- The steps of a schedule, one after the other; `none` when one of them is
not enabled. -/
def run (cfg : Config) : List Action → State → Option State
  | [], s => some s
  | a :: rest, s => (step cfg a s).bind (run cfg rest)

def Stream.init (unread : GoString) : Stream :=
  { unread := unread, source := SourcePc.idle, chan := ⟨[], false⟩, pump := PumpPc.idle,
    scanned := [], forwarded := [] }

/-- The state when `main` starts: `init` has parsed the flags and started the
signal goroutine. -/
def State.init (cfg : Config) : State :=
  { main := MainPc.checkArgs, handler := none, sigc := false, ctxLive := false, done := false,
    wg := 0, inb := Stream.init cfg.socket, outb := Stream.init cfg.stdin, stdout := [],
    sent := [], dials := 0, dialed := none, deferred := false, closes := 0, joined := false,
    exited := none }

/-- The pump of a stream is STOPPED for the reason `r`. -/
def PumpPc.stoppedFor (p : PumpPc) (r : Stop) : Bool :=
  match p with
  | PumpPc.cancel q => decide (q = r)
  | PumpPc.wgDone q => decide (q = r)
  | PumpPc.finished q => decide (q = r)
  | _ => false

/-- A configuration for the examples: `prog host 23`, default timeout. -/
def demo (stdin socket : GoString) : Config :=
  { args := [ascii "host", ascii "23"], timeoutInt := 60, progName := ascii "telnet",
    stdin := stdin, socket := socket, showDuration := fun _ => ascii "(duration)", elapsed := 0 }

/-! ## Invariants of the transition system -/

/-- The channel of a stream is open, and its pump neither holds the result of a
receive from a closed channel nor has stopped for a closed channel. -/
def Stream.isOpen (x : Stream) : Prop :=
  x.chan.closed = false ∧ (∀ l, x.pump ≠ PumpPc.got l false) ∧
    x.pump.stoppedFor Stop.chanClosed = false

/-- The line a pump holds between the receive and the write. -/
def PumpPc.held : PumpPc → List GoString
  | PumpPc.got line true => [line]
  | _ => []

/-- The line a line source holds between `Scan` and the send. -/
def SourcePc.held : SourcePc → List GoString
  | SourcePc.send line => [line]
  | _ => []

/-- The lines of a stream that are scanned and not forwarded: the one the pump
holds, the buffer of the channel, the one the line source holds. -/
def Stream.inFlight (x : Stream) : List GoString :=
  x.pump.held ++ x.chan.buf ++ x.source.held

/-- Every scanned line is forwarded or in flight, in order, and the buffer of
the channel respects its capacity. -/
def Stream.flow (x : Stream) : Prop :=
  x.scanned = x.forwarded ++ x.inFlight ∧ x.chan.buf.length ≤ chanCap

/-- How far `main` has got, as a number: the position of its next statement. -/
def MainPc.stage : MainPc → Nat
  | MainPc.checkArgs => 0
  | MainPc.banner => 1
  | MainPc.withTimeout => 2
  | MainPc.dial => 3
  | MainPc.connected => 4
  | MainPc.deferClose => 5
  | MainPc.scanStdin => 6
  | MainPc.scanConn => 7
  | MainPc.addRead => 8
  | MainPc.goRead => 9
  | MainPc.addWrite => 10
  | MainPc.goWrite => 11
  | MainPc.wait => 12
  | MainPc.exiting _ => 13
  | MainPc.ret => 14

/-- The progress of `main` through the session: its stage, where a
`printAndExit` entered before `wg.Wait()` returned (usage, connect failure)
counts as no progress. `joined` says whether `wg.Wait()` has returned. -/
def MainPc.progress (pc : MainPc) (joined : Bool) : Nat :=
  match pc with
  | MainPc.exiting _ => if joined then 13 else 0
  | pc => pc.stage

/-- The exit status a `printAndExit` in progress will give. -/
def Exiting.code : Exiting → Nat
  | Exiting.println _ e => e
  | Exiting.stopped e => e
  | Exiting.osExit e => e

/-- The goroutine of the pump is between its start and its `wg.Done()`. -/
def PumpPc.isLive : PumpPc → Bool
  | PumpPc.idle => false
  | PumpPc.finished _ => false
  | _ => true

/-- The goroutine of the pump has called `cancel()`. -/
def PumpPc.hasCancelled : PumpPc → Bool
  | PumpPc.wgDone _ => true
  | PumpPc.finished _ => true
  | _ => false

/-- The shape of control: `main` never returns; once `wg.Wait()` has returned
`main` is in `printAndExit`; the status of a `printAndExit` of `main` is 0 after
the join and 1 before it; the one of the signal goroutine is 1. -/
def InvShape (s : State) : Prop :=
  s.main ≠ MainPc.ret ∧ (s.joined = true → ∃ p, s.main = MainPc.exiting p) ∧
  (∀ p, s.main = MainPc.exiting p → p.code = if s.joined then 0 else 1) ∧
  (∀ p, s.handler = some p → p.code = 1)

/-- The context: it exists from the dial on, and only an existing context is
done or has goroutines that may cancel it. -/
def InvCtx (s : State) : Prop :=
  (s.done = true → s.ctxLive = true) ∧
  (s.main.stage ≤ 2 → s.ctxLive = false) ∧
  (3 ≤ s.main.progress s.joined → s.ctxLive = true) ∧
  (s.outb.source ≠ SourcePc.idle → s.ctxLive = true) ∧
  (s.inb.source ≠ SourcePc.idle → s.ctxLive = true) ∧
  (s.inb.pump ≠ PumpPc.idle → s.ctxLive = true) ∧
  (s.outb.pump ≠ PumpPc.idle → s.ctxLive = true)

/-- The dial: it has not returned before stage 4, it returned without error
exactly when `main` progressed beyond it, and it was called at most once. -/
def InvDial (s : State) : Prop :=
  (s.main.stage ≤ 3 → s.dialed = none) ∧
  (s.dialed = some none ↔ 4 ≤ s.main.progress s.joined) ∧
  s.dials = if s.dialed = none then 0 else 1

/-- The goroutines: where `main` is determines which of them have been started;
the WaitGroup counter counts the pumps that are live or about to be started;
after the join no pump is live. -/
def InvSpawn (s : State) : Prop :=
  (s.outb.source ≠ SourcePc.idle ↔ 7 ≤ s.main.progress s.joined) ∧
  (s.inb.source ≠ SourcePc.idle ↔ 8 ≤ s.main.progress s.joined) ∧
  (s.inb.pump ≠ PumpPc.idle ↔ 10 ≤ s.main.progress s.joined) ∧
  (s.outb.pump ≠ PumpPc.idle ↔ 12 ≤ s.main.progress s.joined) ∧
  s.wg = (if s.main = MainPc.goRead ∨ s.inb.pump.isLive = true then 1 else 0)
    + (if s.main = MainPc.goWrite ∨ s.outb.pump.isLive = true then 1 else 0) ∧
  (s.joined = true → s.inb.pump.isLive = false ∧ s.outb.pump.isLive = false) ∧
  (s.inb.pump ≠ PumpPc.idle → s.main ≠ MainPc.goRead) ∧
  (s.outb.pump ≠ PumpPc.idle → s.main ≠ MainPc.goWrite)

/-- A goroutine that has executed its `cancel()` has fired the signal. -/
def InvFired (s : State) : Prop :=
  (s.outb.source = SourcePc.finished → s.done = true) ∧
  (s.inb.source = SourcePc.finished → s.done = true) ∧
  (s.inb.pump.hasCancelled = true → s.done = true) ∧
  (s.outb.pump.hasCancelled = true → s.done = true)

/-- The connection is never closed, and the process exits only by the
`os.Exit` of a `printAndExit`, of `main` or of the signal goroutine. -/
def InvExit (s : State) : Prop :=
  s.closes = 0 ∧
  ∀ e, s.exited = some e →
    s.main = MainPc.exiting (Exiting.osExit e) ∨ s.handler = some (Exiting.osExit e)

/-- The channels stay open. -/
def InvOpen (s : State) : Prop := s.inb.isOpen ∧ s.outb.isOpen

/-- Every scanned line of either stream is forwarded or in flight. -/
def InvFlow (s : State) : Prop := s.inb.flow ∧ s.outb.flow

/-- All the invariants together. -/
structure Inv (s : State) : Prop where
  shape : InvShape s
  ctx : InvCtx s
  dial : InvDial s
  spawn : InvSpawn s
  fired : InvFired s
  exit : InvExit s
  chans : InvOpen s
  flow : InvFlow s

/-- No SIGINT has arrived: the signal goroutine still waits and its channel is
empty. -/
def Quiet (s : State) : Prop := s.handler = none ∧ s.sigc = false

/-- A schedule for the examples: the connect succeeds, the line source of
standard input scans two lines (the first goes into the channel, the second is
held), the session deadline expires, both pumps see the cancellation and
return, `main` joins them and exits. -/
def sessionRun : List Action :=
  [Action.main, Action.main, Action.main, Action.dial none, Action.main, Action.main,
   Action.main, Action.main, Action.main, Action.main, Action.main, Action.main,
   Action.source Dir.outbound, Action.source Dir.outbound, Action.source Dir.outbound,
   Action.deadline, Action.pumpDone Dir.outbound, Action.pumpDone Dir.inbound,
   Action.pumpExit Dir.inbound, Action.pumpExit Dir.inbound, Action.pumpExit Dir.outbound,
   Action.pumpExit Dir.outbound, Action.main, Action.main, Action.main, Action.main]

/-- The configuration of the examples with three lines on standard input and a
silent peer. -/
def demoCfg : Config := demo (ascii "a\nb\nc\n") []

/-- The statements a pump still has to execute before its goroutine finishes,
once the cancellation is fired. -/
def PumpPc.todo : PumpPc → Nat
  | PumpPc.idle => 3
  | PumpPc.select => 3
  | PumpPc.got _ _ => 4
  | PumpPc.cancel _ => 2
  | PumpPc.wgDone _ => 1
  | PumpPc.finished _ => 0

/-- The statements `main` still has to execute before the process exits, from
the successful dial on. -/
def MainPc.todo : MainPc → Nat
  | MainPc.exiting (Exiting.println _ _) => 3
  | MainPc.exiting (Exiting.stopped _) => 2
  | MainPc.exiting (Exiting.osExit _) => 1
  | pc => 16 - pc.stage

/-- A bound on the number of steps to the exit of a connected session. -/
def State.todo (s : State) : Nat :=
  (if s.done then 0 else 1) + s.main.todo + s.inb.pump.todo + s.outb.pump.todo

/-- The next step of a pump once the cancellation is fired, if it has one. -/
def pumpNext (d : Dir) : PumpPc → Option Action
  | PumpPc.select => some (Action.pumpDone d)
  | PumpPc.got _ _ => some (Action.pumpForward d none)
  | PumpPc.cancel _ => some (Action.pumpExit d)
  | PumpPc.wgDone _ => some (Action.pumpExit d)
  | _ => none

/-- A schedule that leads a connected session to its exit: the deadline
expires; `main` goes on to `wg.Wait()`; each pump takes the case
`<-ctx.Done()` and its goroutine finishes; `main` prints and exits. -/
def nextAction (s : State) : Action :=
  if !s.done then Action.deadline
  else
    match s.main with
    | MainPc.wait =>
      match pumpNext Dir.inbound s.inb.pump with
      | some a => a
      | none =>
        match pumpNext Dir.outbound s.outb.pump with
        | some a => a
        | none => Action.main
    | _ => Action.main

/-- A schedule for the examples: the connect succeeds, a line of standard input
reaches `writeRoutine`, the `Write` on the connection fails, the pump returns
and cancels, the other pump sees the cancellation, `main` joins and exits. -/
def writeErrorRun : List Action :=
  [Action.main, Action.main, Action.main, Action.dial none, Action.main, Action.main,
   Action.main, Action.main, Action.main, Action.main, Action.main, Action.main,
   Action.source Dir.outbound, Action.source Dir.outbound, Action.pumpRecv Dir.outbound,
   Action.pumpForward Dir.outbound (some (ascii "broken pipe")),
   Action.pumpExit Dir.outbound, Action.pumpExit Dir.outbound,
   Action.pumpDone Dir.inbound, Action.pumpExit Dir.inbound, Action.pumpExit Dir.inbound,
   Action.main, Action.main, Action.main, Action.main]

/-- The data of the streams: the writes on the connection are the forwarded
outbound lines, each with its newline, and the lines scanned so far, followed
by those `readScan` yields on the rest of the reader, are the lines `readScan`
yields on the whole stream. -/
def InvData (cfg : Config) (s : State) : Prop :=
  s.sent = s.outb.forwarded.map withNewline ∧
  s.outb.scanned ++ readScan s.outb.unread = readScan cfg.stdin ∧
  s.inb.scanned ++ readScan s.inb.unread = readScan cfg.socket

/-- The configuration of the examples with nothing on standard input and a
peer that closes at once. -/
def eofCfg : Config := demo [] []

/-- A schedule for the examples: the connect succeeds and `main` starts the
goroutines; the line source of the socket reads EOF, `readScan` returns and the
goroutine of `scanToChan` calls `cancel()`; the line source of standard input
reads EOF and `readScan` returns. No deadline expires. -/
def eofRun : List Action :=
  [Action.main, Action.main, Action.main, Action.dial none, Action.main, Action.main,
   Action.main, Action.main, Action.main, Action.main, Action.main, Action.main,
   Action.source Dir.inbound, Action.source Dir.inbound, Action.source Dir.outbound]

/-! ## The pumps as functions -/

/-- C1: when the first failing write on the socket is the one of line number `k`
(counting from 0; `k` beyond the last line when no write fails), `writeRoutine`
calls `Write` exactly on `line + "\n"` for the lines up to and including line
`k`, once each and in dequeue order, and on nothing after a failed write: the
writer is left in the state these calls, and no others, put it in. The routine
stops with a write error exactly when a write failed. -/
theorem writeRoutine_write_trace {σ : Type} (out : Writer σ) (st : σ)
    (lines : List GoString) (k : Nat)
    (hok : ∀ j, j < k → j < lines.length →
      (writeResults out st (lines.map withNewline))[j]? = some false)
    (hfail : k < lines.length →
      (writeResults out st (lines.map withNewline))[k]? = some true) :
    (writeRoutine out st (dequeued lines)).wrote = (lines.take (k + 1)).map withNewline ∧
    (writeRoutine out st (dequeued lines)).stop =
      (if k < lines.length then some Stop.writeError else none) ∧
    (writeRoutine out st (dequeued lines)).out
      = writeAll out st ((lines.take (k + 1)).map withNewline) := by
  induction lines generalizing st k with
  | nil => simp [dequeued, writeRoutine, writeAll]
  | cons l ls ih =>
    cases k with
    | zero =>
      have h0 := hfail (by simp)
      simp [writeResults, withNewline] at h0
      obtain ⟨e, he⟩ := Option.isSome_iff_exists.mp h0
      have hw : out.write st (l ++ [nl]) = ((out.write st (l ++ [nl])).1, some e) := by
        rw [← he]
      simp only [dequeued, List.map_cons, writeRoutine]
      rw [hw]
      simp [withNewline, writeAll]
    | succ k =>
      have h0 := hok 0 (by simp) (by simp)
      simp [writeResults, withNewline] at h0
      have hw : out.write st (l ++ [nl]) = ((out.write st (l ++ [nl])).1, none) := by
        rw [← h0]
      have ih1 := ih (out.write st (l ++ [nl])).1 k
        (fun j hj hjl => by
          have := hok (j + 1) (by omega) (by simp; omega)
          simpa [writeResults, withNewline] using this)
        (fun hk => by
          have := hfail (by simp; omega)
          simpa [writeResults, withNewline] using this)
      simp only [dequeued, List.map_cons, writeRoutine]
      rw [hw]
      simp only [dequeued] at ih1
      simp [ih1.1, ih1.2.1, ih1.2.2, withNewline, writeAll]

theorem writeRoutine_write_trace_witness :
    (writeRoutine (failingAt 1) [] (dequeued [ascii "a", ascii "b", ascii "c"])).wrote
      = ([ascii "a", ascii "b", ascii "c"].take (1 + 1)).map withNewline ∧
    (writeRoutine (failingAt 1) [] (dequeued [ascii "a", ascii "b", ascii "c"])).stop
      = (if 1 < [ascii "a", ascii "b", ascii "c"].length then some Stop.writeError else none) ∧
    (writeRoutine (failingAt 1) [] (dequeued [ascii "a", ascii "b", ascii "c"])).out
      = writeAll (failingAt 1) [] (([ascii "a", ascii "b", ascii "c"].take (1 + 1)).map
          withNewline) :=
  writeRoutine_write_trace (failingAt 1) [] [ascii "a", ascii "b", ascii "c"] 1
    (by decide) (by decide)

/-- The state of the writer `failingAt n` is the list of the calls it received. -/
theorem writeAll_failingAt (n : Nat) (st ps : List GoString) :
    writeAll (failingAt n) st ps = st ++ ps := by
  induction ps generalizing st with
  | nil => simp [writeAll]
  | cons p ps ih =>
    have hw : ((failingAt n).write st p).1 = st ++ [p] := rfl
    simp only [writeAll, hw, ih]
    simp

/-- The calls of `Write` received by the writer of the example above: two, the
second one failing; the third line is never written. -/
theorem writeRoutine_calls_received :
    (writeRoutine (failingAt 1) [] (dequeued [ascii "a", ascii "b", ascii "c"])).out
      = [ascii "a\n", ascii "b\n"] ∧
    writeAll (failingAt 1) [] (([ascii "a", ascii "b", ascii "c"].take (1 + 1)).map withNewline)
      = [ascii "a\n", ascii "b\n"] := by
  decide

/-! ## Lemmas on the scanner -/

theorem indexByte_append_nl (l rest : GoString) (h : nl ∉ l) :
    indexByte (l ++ nl :: rest) nl = some l.length := by
  induction l with
  | nil => simp [indexByte]
  | cons x xs ih =>
    have hx : x ≠ nl := fun e => h (by simp [e])
    have hxs : nl ∉ xs := fun e => h (by simp [e])
    simp [indexByte, hx, ih hxs]

theorem indexByte_lt (data : GoString) (b : Byte) (i : Nat)
    (h : indexByte data b = some i) : i < data.length := by
  induction data generalizing i with
  | nil => simp [indexByte] at h
  | cons x xs ih =>
    by_cases hx : x = b
    · simp [indexByte, hx] at h; subst h; simp
    · simp [indexByte, hx] at h
      obtain ⟨j, hj, rfl⟩ := h
      have := ih j hj
      simp; omega

theorem Scan_nil : Scan [] = none := by
  simp [Scan, ScanLines, maxScanTokenSize]

theorem Scan_line (l rest : GoString) (h : nl ∉ l) (hlen : l.length < maxScanTokenSize) :
    Scan (l ++ nl :: rest) = some (dropCR l, rest) := by
  have hw : List.take maxScanTokenSize (l ++ nl :: rest)
      = l ++ nl :: List.take (maxScanTokenSize - l.length - 1) rest := by
    rw [List.take_append_eq_append_take, List.take_of_length_le (by omega)]
    congr 1
    obtain ⟨m, hm⟩ : ∃ m, maxScanTokenSize - l.length = m + 1 := ⟨maxScanTokenSize - l.length - 1, by omega⟩
    rw [hm, List.take_succ_cons]
    simp
  simp only [Scan, hw, ScanLines, indexByte_append_nl l _ h]
  simp

theorem Scan_length (u t u1 : GoString) (h : Scan u = some (t, u1)) :
    u1.length < u.length := by
  unfold Scan ScanLines at h
  simp only at h
  split at h
  · rename_i adv tok heq
    simp only [Option.some.injEq, Prod.mk.injEq] at h
    obtain ⟨-, rfl⟩ := h
    split at heq
    · simp at heq
    · rename_i hne
      split at heq
      · rename_i i hi
        simp only [Prod.mk.injEq] at heq
        have hlt := indexByte_lt _ _ _ hi
        have : 0 < u.length := by
          cases u with
          | nil => simp at hlt
          | cons => simp
        rw [← heq.1]
        simp only [List.length_drop]
        omega
      · split at heq
        · rename_i hat
          simp only [Prod.mk.injEq] at heq
          simp only [decide_eq_true_eq] at hat
          rw [← heq.1]
          have hu : u ≠ [] := by
            intro hu
            subst hu
            simp [maxScanTokenSize] at hne
          have : 0 < u.length := List.length_pos.mpr hu
          simp only [List.length_drop, List.length_take]
          omega
        · simp at heq
  · simp at h

/-- More fuel than the length of the unread stream changes nothing: the loop of
`readScan` reaches its `break` within `unread.length + 1` iterations. -/
theorem readScanLoop_fuel (fuel : Nat) (unread : GoString) (h : unread.length < fuel) :
    readScanLoop fuel unread = readScan unread := by
  unfold readScan
  induction fuel using Nat.strong_induction_on generalizing unread with
  | _ fuel ih =>
    obtain ⟨f, rfl⟩ : ∃ f, fuel = f + 1 := ⟨fuel - 1, by omega⟩
    simp only [readScanLoop]
    cases hs : Scan unread with
    | none => simp
    | some p =>
      obtain ⟨t, u1⟩ := p
      have hl := Scan_length _ _ _ hs
      simp only
      rw [ih f (by omega) u1 (by omega)]
      obtain ⟨g, hg⟩ : ∃ g, unread.length = g + 1 := ⟨unread.length - 1, by omega⟩
      rw [hg]
      rw [ih (g + 1) (by omega) u1 (by omega)]

theorem readScan_cons (l rest : GoString) (h : nl ∉ l) (hlen : l.length < maxScanTokenSize) :
    readScan (l ++ nl :: rest) = dropCR l :: readScan rest := by
  conv_lhs => unfold readScan
  simp only [readScanLoop, Scan_line l rest h hlen]
  rw [readScanLoop_fuel _ _ (by simp only [List.length_append, List.length_cons]; omega)]

theorem readScan_joinLines (lines : List GoString)
    (h : ∀ l ∈ lines, nl ∉ l ∧ l.length < maxScanTokenSize) :
    readScan (joinLines lines) = lines.map dropCR := by
  induction lines with
  | nil => simp [joinLines, readScan, readScanLoop, Scan_nil]
  | cons l ls ih =>
    have hl := h l (by simp)
    have : joinLines (l :: ls) = l ++ nl :: joinLines ls := by
      simp [joinLines, withNewline]
    rw [this, readScan_cons l _ hl.1 hl.2, ih (fun x hx => h x (by simp [hx]))]
    simp

theorem recorder_write (st p : GoString) : recorder.write st p = (st ++ p, none) := rfl

theorem readRoutine_recorder (st : GoString) (lines : List GoString) :
    (readRoutine recorder st (dequeued lines)).out = st ++ joinLines lines ∧
    (readRoutine recorder st (dequeued lines)).wrote = lines.map withNewline := by
  induction lines generalizing st with
  | nil => simp [dequeued, readRoutine, joinLines]
  | cons l ls ih =>
    have := ih (st ++ (l ++ [nl]))
    simp only [dequeued] at this
    simp [dequeued, readRoutine, recorder_write, joinLines, withNewline, this.1, this.2]

theorem dropCR_eq_self (l : GoString) (h : l.getLast? ≠ some cr) : dropCR l = l := by
  simp [dropCR, h]

theorem indexByte_none (data : GoString) (b : Byte) (h : b ∉ data) :
    indexByte data b = none := by
  induction data with
  | nil => simp [indexByte]
  | cons x xs ih =>
    have hx : x ≠ b := fun e => h (by simp [e])
    have hxs : b ∉ xs := fun e => h (by simp [e])
    simp [indexByte, hx, ih hxs]

/-- A line that fills the buffer of the scanner before its newline is not
scanned: `Scan` returns false (`ErrTooLong`) and `readScan` sends nothing. -/
theorem readScan_too_long (l rest : GoString) (h : nl ∉ l)
    (hlen : maxScanTokenSize ≤ l.length) : readScan (l ++ nl :: rest) = [] := by
  have hw : nl ∉ List.take maxScanTokenSize (l ++ nl :: rest) := by
    rw [List.take_append_of_le_length hlen]
    exact fun hm => h (List.mem_of_mem_take hm)
  have hs : Scan (l ++ nl :: rest) = none := by
    have hne : List.take maxScanTokenSize (l ++ nl :: rest) ≠ [] := by
      have : 0 < maxScanTokenSize := by decide
      cases l with
      | nil => simp [maxScanTokenSize] at hlen
      | cons x xs =>
        obtain ⟨m, hm⟩ : ∃ m, maxScanTokenSize = m + 1 := ⟨maxScanTokenSize - 1, by omega⟩
        rw [hm]
        simp
    have hat : ¬ (l.length + (rest.length + 1) < maxScanTokenSize) := by omega
    simp [Scan, ScanLines, indexByte_none _ _ hw, hat, hne]
  simp [readScan, readScanLoop, hs]

/-- What the inbound path prints for lines shorter than the buffer limit: every
line without its final carriage return, if it has one, followed by a newline. -/
theorem inboundPath_joinLines (lines : List GoString)
    (h : ∀ l ∈ lines, nl ∉ l ∧ l.length < maxScanTokenSize) :
    inboundPath (joinLines lines) = joinLines (lines.map dropCR) := by
  unfold inboundPath
  rw [readScan_joinLines lines h, (readRoutine_recorder [] _).1]
  simp

/-- A line of `maxScanTokenSize` bytes is not printed at all. -/
theorem inbound_long_line_dropped :
    inboundPath (joinLines [List.replicate maxScanTokenSize 97]) = [] := by
  have h : readScan (joinLines [List.replicate maxScanTokenSize 97]) = [] := by
    have : joinLines [List.replicate maxScanTokenSize 97]
        = List.replicate maxScanTokenSize 97 ++ nl :: [] := by
      simp [joinLines, withNewline]
    rw [this]
    exact readScan_too_long _ _ (by simp [List.mem_replicate, nl]) (by simp)
  rw [inboundPath, h]
  rfl

/-- C2 (amended): lines without a final carriage return and shorter than the
scanner's buffer limit are printed to standard output exactly as received, in
the order received, each followed by its newline. -/
theorem inbound_round_trip (lines : List GoString)
    (h : ∀ l ∈ lines, nl ∉ l ∧ l.getLast? ≠ some cr ∧ l.length < maxScanTokenSize) :
    readScan (joinLines lines) = lines ∧
    inboundPath (joinLines lines) = joinLines lines := by
  have hs : readScan (joinLines lines) = lines := by
    rw [readScan_joinLines lines (fun l hl => ⟨(h l hl).1, (h l hl).2.2⟩)]
    conv_rhs => rw [← List.map_id lines]
    exact List.map_congr_left (fun l hl => dropCR_eq_self l (h l hl).2.1)
  refine ⟨hs, ?_⟩
  unfold inboundPath
  rw [hs, (readRoutine_recorder [] lines).1]
  simp

theorem inbound_round_trip_witness :
    readScan (joinLines [ascii "hello", ascii "", ascii "wor\rld"])
      = [ascii "hello", ascii "", ascii "wor\rld"] ∧
    inboundPath (joinLines [ascii "hello", ascii "", ascii "wor\rld"])
      = joinLines [ascii "hello", ascii "", ascii "wor\rld"] :=
  inbound_round_trip [ascii "hello", ascii "", ascii "wor\rld"] (by decide)

/-- C2 (as stated) fails: the line `"a\r"`, received as the bytes `a \r \n`, is
printed as `a \n`: the carriage return before the newline is stripped. -/
theorem inbound_round_trip_counterexample :
    (∀ l ∈ [ascii "a\r"], nl ∉ l) ∧
    inboundPath (joinLines [ascii "a\r"]) = ascii "a\n" ∧
    inboundPath (joinLines [ascii "a\r"]) ≠ joinLines [ascii "a\r"] := by
  decide

theorem readRoutine_stop_ne_writeError {σ : Type} (stdout : Writer σ) (st : σ)
    (evs : List Selected) :
    (readRoutine stdout st evs).stop ≠ some Stop.writeError := by
  induction evs generalizing st with
  | nil => simp [readRoutine]
  | cons ev evs ih =>
    cases ev with
    | done => simp [readRoutine]
    | recv line ok =>
      cases ok with
      | false => simp [readRoutine]
      | true => simpa [readRoutine] using ih _

theorem readRoutine_dequeued {σ : Type} (stdout : Writer σ) (st : σ)
    (lines : List GoString) :
    (readRoutine stdout st (dequeued lines)).wrote = lines.map withNewline ∧
    (readRoutine stdout st (dequeued lines)).stop = none ∧
    (readRoutine stdout st (dequeued lines)).out
      = writeAll stdout st (lines.map withNewline) := by
  induction lines generalizing st with
  | nil => simp [dequeued, readRoutine, writeAll]
  | cons l ls ih =>
    have := ih (stdout.write st (l ++ [nl])).1
    simp only [dequeued] at this
    simp [dequeued, readRoutine, withNewline, writeAll, this.1, this.2.1, this.2.2]

/-- C7 (amended): `readRoutine` does not look at the result of printing. For
every standard output, failing or not, and every sequence of lines dequeued, it
prints every line followed by a newline (standard output is left in the state
that one write per line, in order, puts it in, whatever each write returned)
and is still RUNNING afterwards; on any sequence of observations it never stops
for a failed write. -/
theorem readRoutine_ignores_print_failure {σ : Type} (stdout : Writer σ) (st : σ)
    (lines : List GoString) (evs : List Selected) :
    (readRoutine stdout st (dequeued lines)).wrote = lines.map withNewline ∧
    (readRoutine stdout st (dequeued lines)).stop = none ∧
    (readRoutine stdout st evs).stop ≠ some Stop.writeError ∧
    (readRoutine stdout st (dequeued lines)).out
      = writeAll stdout st (lines.map withNewline) :=
  ⟨(readRoutine_dequeued stdout st lines).1, (readRoutine_dequeued stdout st lines).2.1,
    readRoutine_stop_ne_writeError stdout st evs, (readRoutine_dequeued stdout st lines).2.2⟩

/-- C7 (as stated) fails: on a standard output where every print fails, the
print of the first line fails, yet the pump goes on to print the second line
(standard output receives both calls) and is still RUNNING. -/
theorem readRoutine_print_failure_counterexample :
    writeResults broken [] ([ascii "a", ascii "b"].map withNewline) = [true, true] ∧
    (readRoutine broken [] (dequeued [ascii "a", ascii "b"])).wrote
      = [ascii "a\n", ascii "b\n"] ∧
    (readRoutine broken [] (dequeued [ascii "a", ascii "b"])).stop = none ∧
    (readRoutine broken [] (dequeued [ascii "a", ascii "b"])).out
      = [ascii "a\n", ascii "b\n"] := by
  decide

/-! ## The connect deadline -/

/-- C4 (amended): for a positive session timeout, the time allowed to the
connect attempt is the smaller of the 5-second `connectTimeout` and what is left
of the session timeout when the dial starts; it is the full 5 seconds exactly
when at least 5 seconds of the session timeout are left, and it never exceeds
the session timeout. -/
theorem connect_allowance_min (timeoutInt created now : Int)
    (hpos : 0 < timeout timeoutInt) (hnow : created ≤ now) :
    connectAllowance (timeout timeoutInt) created now
      = some (min connectTimeout (timeout timeoutInt - (now - created))) ∧
    (connectAllowance (timeout timeoutInt) created now = some connectTimeout ↔
      connectTimeout ≤ timeout timeoutInt - (now - created)) ∧
    min connectTimeout (timeout timeoutInt - (now - created))
      ≤ timeout timeoutInt := by
  have h5 : connectTimeout = 5000000000 := by decide
  have hc : connectAllowance (timeout timeoutInt) created now
      = some (min connectTimeout (timeout timeoutInt - (now - created))) := by
    simp only [connectAllowance, Dialer.deadline, minNonzeroTime, h5]
    simp only [ne_eq, OfNat.ofNat_ne_zero, not_false_eq_true, ↓reduceIte]
    by_cases hlt : now + 5000000000 < created + timeout timeoutInt
    · simp only [hlt, ↓reduceIte, Option.map_some', Option.some.injEq]
      omega
    · simp only [hlt, ↓reduceIte, Option.map_some', Option.some.injEq]
      omega
  refine ⟨hc, ?_, ?_⟩
  · rw [hc]
    simp only [Option.some.injEq]
    omega
  · omega

theorem connect_allowance_min_witness :
    connectAllowance (timeout 60) 0 1000
      = some (min connectTimeout (timeout 60 - (1000 - 0))) ∧
    (connectAllowance (timeout 60) 0 1000 = some connectTimeout ↔
      connectTimeout ≤ timeout 60 - (1000 - 0)) ∧
    min connectTimeout (timeout 60 - (1000 - 0)) ≤ timeout 60 :=
  connect_allowance_min 60 0 1000 (by decide) (by decide)

/-- C4 (as stated) fails: with `-timeout 1` the session timeout is positive and
the connect attempt is allowed 1 second, not the 5 seconds of `connectTimeout`. -/
theorem connect_allowance_counterexample :
    0 < timeout 1 ∧
    connectAllowance (timeout 1) 0 0 = some second ∧
    connectAllowance (timeout 1) 0 0 ≠ some connectTimeout := by
  decide

/-! ## The transition system: induction over schedules -/

set_option linter.unusedTactic false
set_option linter.unreachableTactic false
set_option linter.unnecessarySeqFocus false

theorem run_preserves (cfg : Config) (P : State → Prop) (Q : Action → Prop)
    (hstep : ∀ a s s1, Q a → P s → step cfg a s = some s1 → P s1) :
    ∀ (acts : List Action) (s s1 : State), (∀ a ∈ acts, Q a) → P s →
      run cfg acts s = some s1 → P s1 := by
  intro acts
  induction acts with
  | nil =>
    intro s s1 _ hP h
    simp only [run, Option.some.injEq] at h
    exact h ▸ hP
  | cons a rest ih =>
    intro s s1 hQ hP h
    simp only [run] at h
    cases hs : step cfg a s with
    | none => simp [hs] at h
    | some s2 =>
      simp only [hs, Option.some_bind] at h
      exact ih s2 s1 (fun b hb => hQ b (by simp [hb])) (hstep a s s2 (hQ a (by simp)) hP hs) h

/-! ## The channels stay open -/

theorem invOpen_init (cfg : Config) : InvOpen (State.init cfg) := by
  simp [InvOpen, Stream.isOpen, State.init, Stream.init, PumpPc.stoppedFor]

theorem invOpen_step (cfg : Config) (a : Action) (s s1 : State)
    (hI : InvOpen s) (h : step cfg a s = some s1) : InvOpen s1 := by
  obtain ⟨⟨hi1, hi2, hi3⟩, ⟨ho1, ho2, ho3⟩⟩ := hI
  unfold step at h
  split at h
  · simp at h
  · cases a with
    | main =>
      simp only [mainStep] at h
      split at h <;> (try split at h) <;> simp at h <;> subst h <;>
        simp_all [InvOpen, Stream.isOpen, PumpPc.stoppedFor, printAndExit] <;>
        (split <;> simp_all)
    | dial err =>
      simp only [dialStep] at h
      split at h <;> (try split at h) <;> simp at h <;> subst h <;>
        simp_all [InvOpen, Stream.isOpen, PumpPc.stoppedFor]
    | deadline =>
      simp only at h
      split at h <;> simp at h; subst h
      simp_all [InvOpen, Stream.isOpen]
    | interrupt =>
      simp only [Option.some.injEq] at h; subst h
      simp_all [InvOpen, Stream.isOpen]
    | handler =>
      simp only [handlerStep] at h
      split at h <;> (try split at h) <;> simp at h <;> subst h <;>
        simp_all [InvOpen, Stream.isOpen, PumpPc.stoppedFor, printAndExit] <;>
        (split <;> simp_all)
    | close err =>
      simp only [closeStep] at h
      split at h <;> (try split at h) <;> (try split at h) <;> simp at h <;> subst h <;>
        simp_all [InvOpen, Stream.isOpen, PumpPc.stoppedFor]
    | source d =>
      cases d <;>
      · simp only [sourceStep, State.stream, State.setStream] at h
        split at h <;> (try split at h) <;> (try split at h) <;> simp at h <;> subst h <;>
          simp_all [InvOpen, Stream.isOpen, PumpPc.stoppedFor]
    | pumpDone d =>
      cases d <;>
      · simp only [pumpDoneStep, State.stream, State.setStream] at h
        split at h <;> (try split at h) <;> simp at h <;> subst h <;>
          simp_all [InvOpen, Stream.isOpen, PumpPc.stoppedFor]
    | pumpRecv d =>
      cases d <;>
      · simp only [pumpRecvStep, State.stream, State.setStream] at h
        split at h <;> (try split at h) <;> (try split at h) <;> simp at h <;> subst h <;>
          simp_all [InvOpen, Stream.isOpen, PumpPc.stoppedFor]
    | pumpForward d err =>
      cases d <;>
      · simp only [pumpForwardStep, State.stream, State.setStream] at h
        split at h <;> (try split at h) <;> (try split at h) <;> simp at h <;> subst h <;>
          simp_all [InvOpen, Stream.isOpen, PumpPc.stoppedFor]
    | pumpExit d =>
      cases d <;>
      · simp only [pumpExitStep, State.stream, State.setStream] at h
        split at h <;> (try split at h) <;> simp at h <;> subst h <;>
          simp_all [InvOpen, Stream.isOpen, PumpPc.stoppedFor]

/-! ## The invariants of control -/

set_option maxHeartbeats 4000000 in
theorem invShape_step (cfg : Config) (a : Action) (s s1 : State)
    (hI : InvShape s) (h : step cfg a s = some s1) : InvShape s1 := by
  obtain ⟨h1, h2, h3, h4⟩ := hI
  unfold step at h
  split at h
  · simp at h
  · cases a <;> (try rename Dir => d; cases d) <;>
      simp only [mainStep, dialStep, handlerStep, closeStep, sourceStep, pumpDoneStep,
        pumpRecvStep, pumpForwardStep, pumpExitStep, printAndExit, State.stream,
        State.setStream] at h <;>
      (repeat' split at h) <;> simp at h <;> subst h <;>
      simp_all [InvShape, Exiting.code]

set_option maxHeartbeats 4000000 in
theorem invCtx_step (cfg : Config) (a : Action) (s s1 : State)
    (hA : InvShape s) (hI : InvCtx s) (h : step cfg a s = some s1) : InvCtx s1 := by
  obtain ⟨a1, a2, a3, a4⟩ := hA
  obtain ⟨h1, h2, h3, h4, h5, h6, h7⟩ := hI
  unfold step at h
  split at h
  · simp at h
  · cases a with
    | main =>
      simp only [mainStep, printAndExit] at h
      (repeat' split at h) <;> simp at h <;> subst h <;>
        simp_all [InvCtx, Exiting.code, MainPc.stage, MainPc.progress]
    | dial err =>
      simp only [dialStep] at h
      (repeat' split at h) <;> simp at h <;> subst h <;>
        simp_all [InvCtx, Exiting.code, MainPc.stage, MainPc.progress]
    | close err =>
      simp only [closeStep] at h
      (repeat' split at h) <;> simp at h <;> subst h <;>
        simp_all [InvCtx, Exiting.code, MainPc.stage, MainPc.progress]
    | _ =>
      (try rename Dir => d; cases d) <;>
      simp only [handlerStep, sourceStep, pumpDoneStep,
        pumpRecvStep, pumpForwardStep, pumpExitStep, printAndExit, State.stream,
        State.setStream] at h <;>
      (repeat' split at h) <;> simp at h <;> subst h <;>
      simp_all [InvCtx]

set_option maxHeartbeats 4000000 in
theorem invDial_step (cfg : Config) (a : Action) (s s1 : State)
    (hA : InvShape s) (hI : InvDial s) (h : step cfg a s = some s1) : InvDial s1 := by
  obtain ⟨a1, a2, a3, a4⟩ := hA
  obtain ⟨h1, h2, h3⟩ := hI
  unfold step at h
  split at h
  · simp at h
  · cases a with
    | main =>
      simp only [mainStep, printAndExit] at h
      (repeat' split at h) <;> simp at h <;> subst h <;>
        simp_all [InvDial, Exiting.code, MainPc.stage, MainPc.progress]
    | dial err =>
      simp only [dialStep] at h
      (repeat' split at h) <;> simp at h <;> subst h <;>
        simp_all [InvDial, Exiting.code, MainPc.stage, MainPc.progress]
    | close err =>
      simp only [closeStep] at h
      (repeat' split at h) <;> simp at h <;> subst h <;>
        simp_all [InvDial, Exiting.code, MainPc.stage, MainPc.progress]
    | _ =>
      (try rename Dir => d; cases d) <;>
      simp only [handlerStep, sourceStep, pumpDoneStep,
        pumpRecvStep, pumpForwardStep, pumpExitStep, printAndExit, State.stream,
        State.setStream] at h <;>
      (repeat' split at h) <;> simp at h <;> subst h <;>
      simp_all [InvDial]

theorem wg_zero (s : State) (h : InvSpawn s) (h0 : s.wg = 0) :
    s.inb.pump.isLive = false ∧ s.outb.pump.isLive = false := by
  have h5 := h.2.2.2.2.1
  rw [h0] at h5
  constructor
  · by_contra hc
    simp only [Bool.not_eq_false] at hc
    simp only [hc, or_true, ↓reduceIte] at h5
    omega
  · by_contra hc
    simp only [Bool.not_eq_false] at hc
    simp only [hc, or_true, ↓reduceIte] at h5
    omega

set_option maxHeartbeats 4000000 in
set_option maxRecDepth 10000 in
theorem invSpawn_step (cfg : Config) (a : Action) (s s1 : State)
    (hA : InvShape s) (hI : InvSpawn s) (h : step cfg a s = some s1) : InvSpawn s1 := by
  have hw := wg_zero s hI
  obtain ⟨a1, a2, a3, a4⟩ := hA
  obtain ⟨h1, h2, h3, h4, h5, h6, h7, h8⟩ := hI
  unfold step at h
  split at h
  · simp at h
  · cases a with
    | main =>
      simp only [mainStep, printAndExit] at h
      (repeat' split at h) <;> simp at h <;> subst h <;>
        first
        | (have hz := hw (by assumption)
           clear hw h5
           simp_all [InvSpawn, Exiting.code, MainPc.stage, MainPc.progress, PumpPc.isLive])
        | simp_all [InvSpawn, Exiting.code, MainPc.stage, MainPc.progress, PumpPc.isLive]
    | dial err =>
      simp only [dialStep] at h
      (repeat' split at h) <;> simp at h <;> subst h <;>
        simp_all [InvSpawn, Exiting.code, MainPc.stage, MainPc.progress, PumpPc.isLive]
    | close err =>
      simp only [closeStep] at h
      (repeat' split at h) <;> simp at h <;> subst h <;>
        simp_all [InvSpawn, Exiting.code, MainPc.stage, MainPc.progress, PumpPc.isLive]
    | _ =>
      (try rename Dir => d; cases d) <;>
      simp only [handlerStep, sourceStep, pumpDoneStep,
        pumpRecvStep, pumpForwardStep, pumpExitStep, printAndExit, State.stream,
        State.setStream] at h <;>
      (repeat' split at h) <;> simp at h <;> subst h <;>
        first
        | (have hz := hw (by assumption)
           clear hw h5
           simp_all [InvSpawn, PumpPc.isLive])
        | simp_all [InvSpawn, PumpPc.isLive]

set_option maxHeartbeats 4000000 in
set_option maxRecDepth 10000 in
theorem invFired_step (cfg : Config) (a : Action) (s s1 : State)
    (hA : InvShape s) (hS : InvSpawn s) (hI : InvFired s) (h : step cfg a s = some s1) :
    InvFired s1 := by
  obtain ⟨a1, a2, a3, a4⟩ := hA
  obtain ⟨b1, b2, b3, b4, -, b6, b7, b8⟩ := hS
  obtain ⟨h1, h2, h3, h4⟩ := hI
  unfold step at h
  split at h
  · simp at h
  · cases a with
    | main =>
      simp only [mainStep, printAndExit] at h
      (repeat' split at h) <;> simp at h <;> subst h <;>
        simp_all [InvFired, Exiting.code, MainPc.stage, MainPc.progress, PumpPc.hasCancelled]
    | dial err =>
      simp only [dialStep] at h
      (repeat' split at h) <;> simp at h <;> subst h <;>
        simp_all [InvFired, Exiting.code, MainPc.stage, MainPc.progress, PumpPc.hasCancelled]
    | close err =>
      simp only [closeStep] at h
      (repeat' split at h) <;> simp at h <;> subst h <;>
        simp_all [InvFired, Exiting.code, MainPc.stage, MainPc.progress, PumpPc.hasCancelled]
    | _ =>
      (try rename Dir => d; cases d) <;>
      simp only [handlerStep, sourceStep, pumpDoneStep,
        pumpRecvStep, pumpForwardStep, pumpExitStep, printAndExit, State.stream,
        State.setStream] at h <;>
      (repeat' split at h) <;> simp at h <;> subst h <;>
      simp_all [InvFired, PumpPc.hasCancelled]

set_option maxHeartbeats 4000000 in
set_option maxRecDepth 10000 in
theorem invExit_step (cfg : Config) (a : Action) (s s1 : State)
    (hA : InvShape s) (hS : InvSpawn s) (hO : InvOpen s) (hI : InvExit s)
    (h : step cfg a s = some s1) : InvExit s1 := by
  have hw := wg_zero s hS
  obtain ⟨a1, a2, a3, a4⟩ := hA
  obtain ⟨⟨o1, -, -⟩, ⟨o2, -, -⟩⟩ := hO
  obtain ⟨h1, h2⟩ := hI
  clear hS
  unfold step at h
  split at h
  · simp at h
  · cases a with
    | main =>
      simp only [mainStep, printAndExit] at h
      (repeat' split at h) <;> simp at h <;> subst h <;>
        simp_all [InvExit]
    | dial err =>
      simp only [dialStep] at h
      (repeat' split at h) <;> simp at h <;> subst h <;>
        simp_all [InvExit]
    | close err =>
      simp only [closeStep] at h
      (repeat' split at h) <;> simp at h <;> subst h <;>
        simp_all [InvExit]
    | _ =>
      (try rename Dir => d; cases d) <;>
      simp only [handlerStep, sourceStep, pumpDoneStep,
        pumpRecvStep, pumpForwardStep, pumpExitStep, printAndExit, State.stream,
        State.setStream] at h <;>
      (repeat' split at h) <;> simp at h <;> subst h <;>
        first
        | (have hz := hw (by assumption)
           clear hw
           simp_all [InvExit, PumpPc.isLive])
        | simp_all [InvExit]

set_option maxHeartbeats 4000000 in
set_option maxRecDepth 10000 in
theorem invFlow_step (cfg : Config) (a : Action) (s s1 : State)
    (hA : InvShape s) (hS : InvSpawn s) (hI : InvFlow s)
    (h : step cfg a s = some s1) : InvFlow s1 := by
  obtain ⟨a1, a2, a3, a4⟩ := hA
  obtain ⟨b1, b2, b3, b4, -, b6, b7, b8⟩ := hS
  obtain ⟨⟨hi1, hi2⟩, ⟨ho1, ho2⟩⟩ := hI
  unfold step at h
  split at h
  · simp at h
  · cases a with
    | main =>
      simp only [mainStep, printAndExit] at h
      (repeat' split at h) <;> simp at h <;> subst h <;>
        simp_all [InvFlow, Stream.flow, Stream.inFlight, PumpPc.held, SourcePc.held,
          MainPc.stage, MainPc.progress]
    | dial err =>
      simp only [dialStep] at h
      (repeat' split at h) <;> simp at h <;> subst h <;>
        simp_all [InvFlow, Stream.flow, Stream.inFlight]
    | close err =>
      simp only [closeStep] at h
      (repeat' split at h) <;> simp at h <;> subst h <;>
        simp_all [InvFlow, Stream.flow, Stream.inFlight]
    | _ =>
      (try rename Dir => d; cases d) <;>
      simp only [handlerStep, sourceStep, pumpDoneStep,
        pumpRecvStep, pumpForwardStep, pumpExitStep, printAndExit, State.stream,
        State.setStream] at h <;>
      (repeat' split at h) <;> simp at h <;> subst h <;>
        simp_all [InvFlow, Stream.flow, Stream.inFlight, PumpPc.held, SourcePc.held, chanCap]

/-! ## The invariants hold in every reachable state -/

theorem inv_init (cfg : Config) : Inv (State.init cfg) := by
  constructor
  · simp [InvShape, State.init]
  · simp [InvCtx, State.init, Stream.init, MainPc.stage, MainPc.progress]
  · simp [InvDial, State.init, MainPc.stage, MainPc.progress]
  · simp [InvSpawn, State.init, Stream.init, MainPc.stage, MainPc.progress, PumpPc.isLive]
  · simp [InvFired, State.init, Stream.init, PumpPc.hasCancelled]
  · simp [InvExit, State.init]
  · simp [InvOpen, Stream.isOpen, State.init, Stream.init, PumpPc.stoppedFor]
  · simp [InvFlow, Stream.flow, Stream.inFlight, State.init, Stream.init, PumpPc.held,
      SourcePc.held]

theorem inv_step (cfg : Config) (a : Action) (s s1 : State) (hI : Inv s)
    (h : step cfg a s = some s1) : Inv s1 :=
  ⟨invShape_step cfg a s s1 hI.shape h,
   invCtx_step cfg a s s1 hI.shape hI.ctx h,
   invDial_step cfg a s s1 hI.shape hI.dial h,
   invSpawn_step cfg a s s1 hI.shape hI.spawn h,
   invFired_step cfg a s s1 hI.shape hI.spawn hI.fired h,
   invExit_step cfg a s s1 hI.shape hI.spawn hI.chans hI.exit h,
   invOpen_step cfg a s s1 hI.chans h,
   invFlow_step cfg a s s1 hI.shape hI.spawn hI.flow h⟩

theorem inv_run (cfg : Config) (acts : List Action) (s s1 : State) (hI : Inv s)
    (h : run cfg acts s = some s1) : Inv s1 :=
  run_preserves cfg Inv (fun _ => True) (fun a s s1 _ hP hs => inv_step cfg a s s1 hP hs)
    acts s s1 (fun _ _ => trivial) hI h

theorem inv_reachable (cfg : Config) (acts : List Action) (s : State)
    (h : run cfg acts (State.init cfg) = some s) : Inv s :=
  inv_run cfg acts _ s (inv_init cfg) h

theorem quiet_step (cfg : Config) (a : Action) (s s1 : State) (ha : a ≠ Action.interrupt)
    (hI : Quiet s) (h : step cfg a s = some s1) : Quiet s1 := by
  obtain ⟨h1, h2⟩ := hI
  unfold step at h
  split at h
  · simp at h
  · cases a <;> (try rename Dir => d; cases d) <;>
      simp only [mainStep, dialStep, handlerStep, closeStep, sourceStep, pumpDoneStep,
        pumpRecvStep, pumpForwardStep, pumpExitStep, printAndExit, State.stream,
        State.setStream] at h <;>
      (repeat' split at h) <;> simp at h <;> (try subst h) <;>
      simp_all [Quiet]

theorem quiet_reachable (cfg : Config) (acts : List Action) (s : State)
    (hq : Action.interrupt ∉ acts) (h : run cfg acts (State.init cfg) = some s) : Quiet s :=
  run_preserves cfg Quiet (fun a => a ≠ Action.interrupt)
    (fun a s s1 ha hP hs => quiet_step cfg a s s1 ha hP hs)
    acts _ s (fun a ha e => hq (e ▸ ha)) (by simp [Quiet, State.init]) h

theorem done_step (cfg : Config) (a : Action) (s s1 : State) (hI : Inv s)
    (hd : s.done = true) (h : step cfg a s = some s1) : s1.done = true := by
  obtain ⟨c1, c2, -⟩ := hI.ctx
  unfold step at h
  split at h
  · simp at h
  · cases a <;> (try rename Dir => d; cases d) <;>
      simp only [mainStep, dialStep, handlerStep, closeStep, sourceStep, pumpDoneStep,
        pumpRecvStep, pumpForwardStep, pumpExitStep, printAndExit, State.stream,
        State.setStream] at h <;>
      (repeat' split at h) <;> simp at h <;> (try subst h) <;>
      simp_all [MainPc.stage]

theorem done_run (cfg : Config) (acts : List Action) (s s1 : State) (hI : Inv s)
    (hd : s.done = true) (h : run cfg acts s = some s1) : s1.done = true :=
  (run_preserves cfg (fun s => Inv s ∧ s.done = true) (fun _ => True)
    (fun a s s1 _ hP hs => ⟨inv_step cfg a s s1 hP.1 hs, done_step cfg a s s1 hP.1 hP.2 hs⟩)
    acts s s1 (fun _ _ => trivial) ⟨hI, hd⟩ h).2

theorem step_of_not_exited (cfg : Config) (a : Action) (s : State) (hx : s.exited = none) :
    step cfg a s =
      match a with
      | Action.main => mainStep cfg s
      | Action.dial err => dialStep err s
      | Action.deadline => if s.ctxLive then some { s with done := true } else none
      | Action.interrupt => some { s with sigc := true }
      | Action.handler => handlerStep cfg s
      | Action.source d => sourceStep d s
      | Action.pumpDone d => pumpDoneStep d s
      | Action.pumpRecv d => pumpRecvStep d s
      | Action.pumpForward d err => pumpForwardStep d err s
      | Action.pumpExit d => pumpExitStep d s
      | Action.close err => closeStep err s := by
  cases a <;> simp [step, hx]

set_option maxHeartbeats 4000000 in
set_option maxRecDepth 10000 in
theorem progress_step (cfg : Config) (s : State) (hI : Inv s) (hc : s.dialed = some none)
    (hx : s.exited = none) :
    ∃ s1, step cfg (nextAction s) s = some s1 ∧ nextAction s ≠ Action.interrupt ∧
      s1.dialed = some none ∧
      (s1.exited = some 0 ∨ (s1.exited = none ∧ s1.todo < s.todo)) := by
  have hp : 4 ≤ s.main.progress s.joined := hI.dial.2.1.mp hc
  have hctx : s.ctxLive = true := hI.ctx.2.2.1 (by omega)
  obtain ⟨a1, a2, a3, a4⟩ := hI.shape
  obtain ⟨b1, b2, b3, b4, b5, b6, b7, b8⟩ := hI.spawn
  rw [step_of_not_exited cfg _ s hx]
  by_cases hd : s.done = true
  swap
  · simp only [Bool.not_eq_true] at hd
    simp [nextAction, hd, hctx, hc, hx, State.todo]
  · cases hm : s.main with
    | checkArgs => simp [hm, MainPc.progress, MainPc.stage] at hp
    | banner => simp [hm, MainPc.progress, MainPc.stage] at hp
    | withTimeout => simp [hm, MainPc.progress, MainPc.stage] at hp
    | dial => simp [hm, MainPc.progress, MainPc.stage] at hp
    | ret => exact absurd hm a1
    | wait =>
      simp only [hm, MainPc.progress, MainPc.stage] at b3 b4
      have i1 : s.inb.pump ≠ PumpPc.idle := b3.mpr (by omega)
      have i2 : s.outb.pump ≠ PumpPc.idle := b4.mpr (by omega)
      cases hpi : s.inb.pump with
      | idle => exact absurd hpi i1
      | finished r =>
        cases hpo : s.outb.pump with
        | idle => exact absurd hpo i2
        | finished r2 =>
          have hw : s.wg = 0 := by simp [b5, hm, hpi, hpo, PumpPc.isLive]
          simp [nextAction, hd, hm, hpi, hpo, pumpNext, mainStep, hw, hc, hx, State.todo,
            MainPc.todo, MainPc.stage]
        | wgDone r2 =>
          have hw : s.wg ≠ 0 := by simp [b5, hm, hpi, hpo, PumpPc.isLive]
          simp [nextAction, hd, hm, hpi, hpo, pumpNext, pumpExitStep, State.stream,
            State.setStream, hw, hc, hx, State.todo, PumpPc.todo]
        | got l ok =>
          cases ok <;>
          simp [nextAction, hd, hm, hpi, hpo, pumpNext, pumpExitStep, pumpDoneStep,
            pumpForwardStep, State.stream, State.setStream, hc, hx, State.todo, PumpPc.todo]
        | _ =>
          simp [nextAction, hd, hm, hpi, hpo, pumpNext, pumpExitStep, pumpDoneStep,
            pumpForwardStep, State.stream, State.setStream, hc, hx, State.todo, PumpPc.todo]
      | wgDone r =>
        have hw : s.wg ≠ 0 := by simp [b5, hm, hpi, PumpPc.isLive]
        simp [nextAction, hd, hm, hpi, pumpNext, pumpExitStep, State.stream,
          State.setStream, hw, hc, hx, State.todo, PumpPc.todo]
      | got l ok =>
        cases ok <;>
        simp [nextAction, hd, hm, hpi, pumpNext, pumpExitStep, pumpDoneStep,
          pumpForwardStep, State.stream, State.setStream, hc, hx, State.todo, PumpPc.todo]
      | _ =>
        simp [nextAction, hd, hm, hpi, pumpNext, pumpExitStep, pumpDoneStep,
          pumpForwardStep, State.stream, State.setStream, hc, hx, State.todo, PumpPc.todo]
    | goRead =>
      have hi : s.inb.pump = PumpPc.idle := by
        by_contra hi
        have := b3.mp hi
        simp [hm, MainPc.progress, MainPc.stage] at this
      simp [nextAction, hd, hm, hi, mainStep, hc, hx, State.todo, MainPc.todo, MainPc.stage,
        PumpPc.todo]
    | goWrite =>
      have hi : s.outb.pump = PumpPc.idle := by
        by_contra hi
        have := b4.mp hi
        simp [hm, MainPc.progress, MainPc.stage] at this
      simp [nextAction, hd, hm, hi, mainStep, hc, hx, State.todo, MainPc.todo, MainPc.stage,
        PumpPc.todo]
    | exiting p =>
      have hj : s.joined = true := by
        by_contra hj
        simp [hm, hj, MainPc.progress] at hp
      have hcode := a3 p hm
      simp only [hj, ↓reduceIte] at hcode
      cases p <;> simp only [Exiting.code] at hcode <;> subst hcode <;>
        simp [nextAction, hd, hm, mainStep, printAndExit, hc, hx, State.todo, MainPc.todo]
    | _ =>
      simp [nextAction, hd, hm, mainStep, hc, hx, State.todo, MainPc.todo, MainPc.stage,
        PumpPc.todo]

theorem can_exit_zero (cfg : Config) :
    ∀ (n : Nat) (s : State), s.todo < n → Inv s → s.dialed = some none → s.exited = none →
      ∃ acts s1, Action.interrupt ∉ acts ∧ run cfg acts s = some s1 ∧ s1.exited = some 0 := by
  intro n
  induction n with
  | zero =>
    intro s hn
    omega
  | succ n ih =>
    intro s hn hI hc hx
    obtain ⟨s1, h1, h2, h3, h4⟩ := progress_step cfg s hI hc hx
    rcases h4 with h4 | ⟨h4, h5⟩
    · exact ⟨[nextAction s], s1, by simpa using h2.symm, by simp [run, h1], h4⟩
    · obtain ⟨acts, s2, g1, g2, g3⟩ := ih s1 (by omega) (inv_step cfg _ s s1 hI h1) h3 h4
      exact ⟨nextAction s :: acts, s2, by simpa using ⟨h2.symm, g1⟩, by simp [run, h1, g2], g3⟩

theorem exit_zero_of_connected (s : State) (hI : Inv s) (hq : Quiet s)
    (hc : s.dialed = some none) (e : Nat) (hx : s.exited = some e) : e = 0 := by
  have hp : 4 ≤ s.main.progress s.joined := hI.dial.2.1.mp hc
  rcases hI.exit.2 e hx with hm | hh
  · have hj : s.joined = true := by
      by_contra hj
      simp [hm, hj, MainPc.progress] at hp
    have := hI.shape.2.2.1 _ hm
    simpa [Exiting.code, hj] using this
  · simp [hq.1] at hh

theorem readScan_some (u t u1 : GoString) (h : Scan u = some (t, u1)) :
    readScan u = t :: readScan u1 := by
  have hl := Scan_length u t u1 h
  conv_lhs => unfold readScan
  simp only [readScanLoop, h]
  rw [readScanLoop_fuel _ _ hl]

theorem invData_init (cfg : Config) : InvData cfg (State.init cfg) := by
  simp [InvData, State.init, Stream.init]

set_option maxHeartbeats 4000000 in
set_option maxRecDepth 10000 in
theorem invData_step (cfg : Config) (a : Action) (s s1 : State)
    (hI : InvData cfg s) (h : step cfg a s = some s1) : InvData cfg s1 := by
  obtain ⟨h1, h2, h3⟩ := hI
  unfold step at h
  split at h
  · simp at h
  · cases a with
    | source d =>
      cases d <;>
      simp only [sourceStep, State.stream, State.setStream] at h <;>
      (repeat' split at h) <;> simp at h <;> subst h <;>
      first
      | (rename_i hs
         have hr := readScan_some _ _ _ hs
         simp_all [InvData])
      | simp_all [InvData]
    | _ =>
      (try rename Dir => d; cases d) <;>
      simp only [mainStep, dialStep, closeStep, handlerStep, pumpDoneStep,
        pumpRecvStep, pumpForwardStep, pumpExitStep, printAndExit, State.stream,
        State.setStream] at h <;>
      (repeat' split at h) <;> simp at h <;> subst h <;>
        simp_all [InvData, withNewline]

/-- In every reachable state, what has been written on the connection is
`line + "\n"` for the first lines of standard input, in order, as `readScan`
yields them; and the lines scanned from the socket are the first lines
`readScan` yields on what the socket delivers. -/
theorem sent_lines_of_stdin (cfg : Config) (acts : List Action) (s : State)
    (h : run cfg acts (State.init cfg) = some s) :
    s.sent = s.outb.forwarded.map withNewline ∧
    s.outb.forwarded <+: readScan cfg.stdin ∧
    s.inb.forwarded <+: readScan cfg.socket := by
  have hD := run_preserves cfg (InvData cfg) (fun _ => True)
    (fun a s s1 _ hP hs => invData_step cfg a s s1 hP hs)
    acts _ s (fun _ _ => trivial) (invData_init cfg) h
  have hF := (inv_reachable cfg acts s h).flow
  refine ⟨hD.1, ?_, ?_⟩
  · rw [← hD.2.1, hF.2.1]
    exact ⟨s.outb.inFlight ++ readScan s.outb.unread, by simp⟩
  · rw [← hD.2.2, hF.1.1]
    exact ⟨s.inb.inFlight ++ readScan s.inb.unread, by simp⟩

/-! ## The claims on the whole program -/

/-- C9: in every reachable state both channels made by `scanToChan` are open,
no pump holds the result of a receive from a closed channel, and no pump has
stopped by its "channel is closed" branch. -/
theorem channels_never_closed (cfg : Config) (acts : List Action) (s : State)
    (h : run cfg acts (State.init cfg) = some s) (d : Dir) :
    (s.stream d).chan.closed = false ∧
    (∀ l, (s.stream d).pump ≠ PumpPc.got l false) ∧
    (s.stream d).pump.stoppedFor Stop.chanClosed = false := by
  have hI := (inv_reachable cfg acts s h).chans
  cases d
  · exact hI.1
  · exact hI.2

theorem channels_never_closed_witness :
    (((run demoCfg sessionRun (State.init demoCfg)).get (by decide)).stream
        Dir.outbound).chan.closed = false ∧
    (∀ l, (((run demoCfg sessionRun (State.init demoCfg)).get (by decide)).stream
        Dir.outbound).pump ≠ PumpPc.got l false) ∧
    (((run demoCfg sessionRun (State.init demoCfg)).get (by decide)).stream
        Dir.outbound).pump.stoppedFor Stop.chanClosed = false :=
  channels_never_closed demoCfg sessionRun _ (Option.some_get _).symm Dir.outbound

/-- C10 (amended): in every reachable state in which the pump of a stream has
stopped because it observed the cancellation, the lines scanned by the line
source are the lines forwarded by the pump followed by at most two more: the
one in the channel and the one the line source holds for its blocked send. -/
theorem at_most_two_lines_lost (cfg : Config) (acts : List Action) (s : State)
    (h : run cfg acts (State.init cfg) = some s) (d : Dir)
    (hstop : (s.stream d).pump.stoppedFor Stop.cancelled = true) :
    (s.stream d).scanned = (s.stream d).forwarded ++ (s.stream d).inFlight ∧
    (s.stream d).inFlight = (s.stream d).chan.buf ++ (s.stream d).source.held ∧
    (s.stream d).inFlight.length ≤ 2 := by
  have hI := (inv_reachable cfg acts s h).flow
  have hx : (s.stream d).flow := by
    cases d
    · exact hI.1
    · exact hI.2
  obtain ⟨h1, h2⟩ := hx
  have hp : (s.stream d).pump.held = [] := by
    cases hpc : (s.stream d).pump <;> simp_all [PumpPc.stoppedFor, PumpPc.held]
  have hs : (s.stream d).source.held.length ≤ 1 := by
    cases (s.stream d).source <;> simp [SourcePc.held]
  refine ⟨h1, by simp [Stream.inFlight, hp], ?_⟩
  simp only [Stream.inFlight, hp, List.nil_append, List.length_append]
  simp only [chanCap] at h2
  omega

theorem at_most_two_lines_lost_witness :
    (((run demoCfg sessionRun (State.init demoCfg)).get (by decide)).stream Dir.outbound).scanned
      = (((run demoCfg sessionRun (State.init demoCfg)).get (by decide)).stream
          Dir.outbound).forwarded
        ++ (((run demoCfg sessionRun (State.init demoCfg)).get (by decide)).stream
          Dir.outbound).inFlight ∧
    (((run demoCfg sessionRun (State.init demoCfg)).get (by decide)).stream Dir.outbound).inFlight
      = (((run demoCfg sessionRun (State.init demoCfg)).get (by decide)).stream
          Dir.outbound).chan.buf
        ++ (((run demoCfg sessionRun (State.init demoCfg)).get (by decide)).stream
          Dir.outbound).source.held ∧
    (((run demoCfg sessionRun (State.init demoCfg)).get (by decide)).stream
        Dir.outbound).inFlight.length ≤ 2 :=
  at_most_two_lines_lost demoCfg sessionRun _ (Option.some_get _).symm Dir.outbound (by decide)

/-- C10 (as stated) fails: standard input holds three lines; the line source
scans `a` and puts it in the channel, scans `b` and blocks on the send; the
deadline expires and `writeRoutine` takes the case `<-ctx.Done()`. The pump has
stopped on cancellation, two lines are scanned and none is forwarded. -/
theorem at_most_one_line_lost_counterexample :
    (run demoCfg (sessionRun.take 17) (State.init demoCfg)).map
      (fun s => (s.outb.pump.stoppedFor Stop.cancelled, s.outb.scanned, s.outb.forwarded))
      = some (true, [ascii "a", ascii "b"], []) ∧
    (run demoCfg (sessionRun.take 17) (State.init demoCfg)).map
      (fun s => (s.outb.chan.buf, s.outb.source))
      = some ([ascii "a"], SourcePc.send (ascii "b")) ∧
    ¬ ([ascii "a", ascii "b"].length - ([] : List GoString).length ≤ 1) :=
  ⟨by decide, by decide, by decide⟩

/-- C8: in every reachable state, a line source whose goroutine has finished and
a pump whose goroutine has executed its `cancel()` (so every finished one) have
fired the cancellation signal; the signal is fired once `wg.Wait()` has
returned; and from a state where it is fired, it is fired in every later
state. The wrappers do fire it: when `Scan` returns false, `readScan` returns;
once `readScan` has returned, the next statement of its goroutine is enabled,
fires the signal and finishes the goroutine; once a pump has returned, for
whatever reason, the next statement of its goroutine is enabled and fires the
signal, and the one after it is enabled and finishes the goroutine. -/
theorem cancellation_propagates (cfg : Config) (acts : List Action) (s : State)
    (h : run cfg acts (State.init cfg) = some s) :
    (∀ d, (s.stream d).source = SourcePc.finished → s.done = true) ∧
    (∀ d, (s.stream d).pump.hasCancelled = true → s.done = true) ∧
    (∀ d r, (s.stream d).pump = PumpPc.finished r → s.done = true) ∧
    (s.joined = true → s.done = true) ∧
    (s.done = true → ∀ later s1, run cfg later s = some s1 → s1.done = true) ∧
    (∀ d, (s.stream d).source = SourcePc.scan → Scan (s.stream d).unread = none →
      s.exited = none →
      ∃ s1, step cfg (Action.source d) s = some s1 ∧
        (s1.stream d).source = SourcePc.cancel) ∧
    (∀ d, (s.stream d).source = SourcePc.cancel → s.exited = none →
      ∃ s1, step cfg (Action.source d) s = some s1 ∧ s1.done = true ∧
        (s1.stream d).source = SourcePc.finished) ∧
    (∀ d r, (s.stream d).pump = PumpPc.cancel r → s.exited = none →
      ∃ s1, step cfg (Action.pumpExit d) s = some s1 ∧ s1.done = true ∧
        (s1.stream d).pump = PumpPc.wgDone r) ∧
    (∀ d r, (s.stream d).pump = PumpPc.wgDone r → s.exited = none →
      ∃ s1, step cfg (Action.pumpExit d) s = some s1 ∧ s1.done = true ∧
        (s1.stream d).pump = PumpPc.finished r) := by
  have hI := inv_reachable cfg acts s h
  obtain ⟨f1, f2, f3, f4⟩ := hI.fired
  have hc : ∀ d, (s.stream d).pump.hasCancelled = true → s.done = true := by
    intro d
    cases d
    · exact f3
    · exact f4
  refine ⟨?_, hc, ?_, ?_, ?_, ?_, ?_, ?_, ?_⟩
  · intro d
    cases d
    · exact f2
    · exact f1
  · intro d r hr
    exact hc d (by simp [hr, PumpPc.hasCancelled])
  · intro hj
    obtain ⟨p, hp⟩ := hI.shape.2.1 hj
    have hlive := (hI.spawn.2.2.2.2.2.1 hj).1
    have hidle : s.inb.pump ≠ PumpPc.idle :=
      hI.spawn.2.2.1.mpr (by simp [hp, hj, MainPc.progress])
    apply f3
    cases hpc : s.inb.pump <;> simp_all [PumpPc.isLive, PumpPc.hasCancelled]
  · intro hd later s1 hr
    exact done_run cfg later s s1 hI hd hr
  · intro d hs hn hx
    cases d <;> simp_all [step, sourceStep, State.stream, State.setStream]
  · intro d hs hx
    cases d <;> simp_all [step, sourceStep, State.stream, State.setStream]
  · intro d r hp hx
    cases d <;> simp_all [step, pumpExitStep, State.stream, State.setStream]
  · intro d r hp hx
    have hd : s.done = true := hc d (by simp [hp, PumpPc.hasCancelled])
    have hw : s.wg ≠ 0 := by
      intro h0
      have := wg_zero s hI.spawn h0
      cases d <;> simp_all [State.stream, PumpPc.isLive]
    cases d <;> simp_all [step, pumpExitStep, State.stream, State.setStream]

theorem cancellation_propagates_witness :
    (∀ d, (((run eofCfg eofRun (State.init eofCfg)).get (by decide)).stream d).source
        = SourcePc.finished →
      ((run eofCfg eofRun (State.init eofCfg)).get (by decide)).done = true) ∧
    (∀ d, (((run eofCfg eofRun (State.init eofCfg)).get (by decide)).stream
        d).pump.hasCancelled = true →
      ((run eofCfg eofRun (State.init eofCfg)).get (by decide)).done = true) ∧
    (∀ d r, (((run eofCfg eofRun (State.init eofCfg)).get (by decide)).stream d).pump
        = PumpPc.finished r →
      ((run eofCfg eofRun (State.init eofCfg)).get (by decide)).done = true) ∧
    (((run eofCfg eofRun (State.init eofCfg)).get (by decide)).joined = true →
      ((run eofCfg eofRun (State.init eofCfg)).get (by decide)).done = true) ∧
    (((run eofCfg eofRun (State.init eofCfg)).get (by decide)).done = true →
      ∀ later s1,
        run eofCfg later ((run eofCfg eofRun (State.init eofCfg)).get (by decide))
          = some s1 → s1.done = true) ∧
    (∀ d, (((run eofCfg eofRun (State.init eofCfg)).get (by decide)).stream d).source
        = SourcePc.scan →
      Scan (((run eofCfg eofRun (State.init eofCfg)).get (by decide)).stream d).unread = none →
      ((run eofCfg eofRun (State.init eofCfg)).get (by decide)).exited = none →
      ∃ s1, step eofCfg (Action.source d)
          ((run eofCfg eofRun (State.init eofCfg)).get (by decide)) = some s1 ∧
        (s1.stream d).source = SourcePc.cancel) ∧
    (∀ d, (((run eofCfg eofRun (State.init eofCfg)).get (by decide)).stream d).source
        = SourcePc.cancel →
      ((run eofCfg eofRun (State.init eofCfg)).get (by decide)).exited = none →
      ∃ s1, step eofCfg (Action.source d)
          ((run eofCfg eofRun (State.init eofCfg)).get (by decide)) = some s1 ∧
        s1.done = true ∧ (s1.stream d).source = SourcePc.finished) ∧
    (∀ d r, (((run eofCfg eofRun (State.init eofCfg)).get (by decide)).stream d).pump
        = PumpPc.cancel r →
      ((run eofCfg eofRun (State.init eofCfg)).get (by decide)).exited = none →
      ∃ s1, step eofCfg (Action.pumpExit d)
          ((run eofCfg eofRun (State.init eofCfg)).get (by decide)) = some s1 ∧
        s1.done = true ∧ (s1.stream d).pump = PumpPc.wgDone r) ∧
    (∀ d r, (((run eofCfg eofRun (State.init eofCfg)).get (by decide)).stream d).pump
        = PumpPc.wgDone r →
      ((run eofCfg eofRun (State.init eofCfg)).get (by decide)).exited = none →
      ∃ s1, step eofCfg (Action.pumpExit d)
          ((run eofCfg eofRun (State.init eofCfg)).get (by decide)) = some s1 ∧
        s1.done = true ∧ (s1.stream d).pump = PumpPc.finished r) :=
  cancellation_propagates eofCfg eofRun _ (Option.some_get _).symm

/-- The run of the example: no deadline expires and no pump has returned. When
`readScan` returns on the socket the signal is not fired; the `cancel()` of its
goroutine fires it. The line source of standard input has returned as well and
its `cancel()` is the next statement. -/
theorem line_source_fires_cancellation :
    (run eofCfg (eofRun.take 13) (State.init eofCfg)).map
      (fun s => (s.inb.source, s.done)) = some (SourcePc.cancel, false) ∧
    (run eofCfg (eofRun.take 14) (State.init eofCfg)).map
      (fun s => (s.inb.source, s.done)) = some (SourcePc.finished, true) ∧
    (run eofCfg eofRun (State.init eofCfg)).map
      (fun s => (s.outb.source, s.inb.pump, s.outb.pump, s.exited))
      = some (SourcePc.cancel, PumpPc.select, PumpPc.select, none) ∧
    Action.deadline ∉ eofRun :=
  ⟨by decide, by decide, by decide, by decide⟩

/-- In every reachable state the number of calls of `conn.Close` is 0 and
`main` is not at its return, where the deferred close would run: every path of
`main` ends in `printAndExit`, whose `os.Exit` runs no deferred function. -/
theorem conn_close_never_runs (cfg : Config) (acts : List Action) (s : State)
    (h : run cfg acts (State.init cfg) = some s) :
    s.closes = 0 ∧ s.main ≠ MainPc.ret := by
  have hI := inv_reachable cfg acts s h
  exact ⟨hI.exit.1, hI.shape.1⟩

/-- C3 (the code at the failing run): the connect succeeds, no interrupt
arrives, both pumps return and `main` joins them; the process exits with
status 0 with the close deferred and performed 0 times, not once. -/
theorem graceful_exit_without_close :
    (run demoCfg sessionRun (State.init demoCfg)).map
      (fun s => (s.exited, s.joined, s.deferred, s.closes)) = some (some 0, true, true, 0) ∧
    Action.interrupt ∉ sessionRun := by
  decide

/-- C5: in every run in which the connect succeeded and no SIGINT arrived,
whatever the line sources scanned and whatever the writes returned, the process
has not exited with a status other than 0, and it can always go on to exit with
status 0 (the deadline expires, the pumps see the cancellation and return,
`main` joins them and exits). -/
theorem stream_errors_not_fatal (cfg : Config) (acts : List Action) (s : State)
    (h : run cfg acts (State.init cfg) = some s) (hq : Action.interrupt ∉ acts)
    (hc : s.dialed = some none) :
    (∀ e, s.exited = some e → e = 0) ∧
    ∃ later s1, Action.interrupt ∉ later ∧ run cfg later s = some s1 ∧
      s1.exited = some 0 := by
  have hI := inv_reachable cfg acts s h
  have hQ := quiet_reachable cfg acts s hq h
  have h0 := exit_zero_of_connected s hI hQ hc
  refine ⟨h0, ?_⟩
  cases hx : s.exited with
  | some e => exact ⟨[], s, by simp, by simp [run], by rw [hx, h0 e hx]⟩
  | none => exact can_exit_zero cfg (s.todo + 1) s (by omega) hI hc hx

theorem stream_errors_not_fatal_witness :
    (∀ e, ((run demoCfg writeErrorRun (State.init demoCfg)).get (by decide)).exited = some e →
      e = 0) ∧
    ∃ later s1, Action.interrupt ∉ later ∧
      run demoCfg later ((run demoCfg writeErrorRun (State.init demoCfg)).get (by decide))
        = some s1 ∧
      s1.exited = some 0 :=
  stream_errors_not_fatal demoCfg writeErrorRun _ (Option.some_get _).symm (by decide)
    (by decide)


end Telnet
